import Mathlib

/-!
Verification of the nanoleaf control-plane core: color model, streaming
codec, device connection reconciliation and device registry, shallowly
embedded from the TypeScript sources.  Numeric device values are modelled
as rationals (JS numbers used for exact decimal arithmetic), byte buffers
as lists of naturals, and the JS `Map` as an insertion-ordered association
list.
-/

namespace Nanoleaf

/-- JS `Math.round`: round to the nearest integer, halves toward `+∞`. -/
def jsRound (q : ℚ) : ℤ := ⌊q + 1/2⌋

/-- Truncation toward zero, as used by the JS `%` operator on numbers. -/
def jsTrunc (q : ℚ) : ℤ := if 0 ≤ q then ⌊q⌋ else -⌊-q⌋

/-- JS `%` on numbers: remainder with the sign of the dividend. -/
def jsFmod (a b : ℚ) : ℚ := a - b * jsTrunc (a / b)

/-- JS `String.prototype.toLowerCase`, modelled as a per-character map
(kernel-reducible, unlike `String.toLower`). -/
def jsToLower (s : String) : String := ⟨s.data.map Char.toLower⟩

/-- `RGBColor`: three channel values (8-bit in intended use). -/
structure RGBColor where
  r : ℤ
  g : ℤ
  b : ℤ
deriving DecidableEq, Repr

/-- `HSBColor`: hue/saturation/brightness as JS numbers. -/
structure HSBColor where
  hue : ℚ
  saturation : ℚ
  brightness : ℚ
deriving DecidableEq, Repr

namespace NanoleafClient

/-- `NanoleafClient.hsbToRgb` from the first client source file: classical
six-sector HSB→RGB conversion with `Math.round` on each output channel. -/
def hsbToRgb (color : HSBColor) : RGBColor :=
  let h := color.hue / 360
  let s := color.saturation / 100
  let v := color.brightness / 100
  let i : ℤ := ⌊h * 6⌋
  let f := h * 6 - (i : ℚ)
  let p := v * (1 - s)
  let q := v * (1 - f * s)
  let t := v * (1 - (1 - f) * s)
  let rgb : ℚ × ℚ × ℚ :=
    if Int.tmod i 6 = 0 then (v, t, p)
    else if Int.tmod i 6 = 1 then (q, v, p)
    else if Int.tmod i 6 = 2 then (p, v, t)
    else if Int.tmod i 6 = 3 then (p, q, v)
    else if Int.tmod i 6 = 4 then (t, p, v)
    else if Int.tmod i 6 = 5 then (v, p, q)
    else (0, 0, 0)
  ⟨jsRound (rgb.1 * 255), jsRound (rgb.2.1 * 255), jsRound (rgb.2.2 * 255)⟩

/-- `NanoleafClient.rgbToHsb` from the first client source file:
max/min/delta decomposition with `Math.round` on each output. -/
def rgbToHsb (color : RGBColor) : HSBColor :=
  let r : ℚ := (color.r : ℚ) / 255
  let g : ℚ := (color.g : ℚ) / 255
  let b : ℚ := (color.b : ℚ) / 255
  let mx := max r (max g b)
  let mn := min r (min g b)
  let delta := mx - mn
  let hue : ℚ :=
    if delta ≠ 0 then
      let h0 :=
        if mx = r then jsFmod ((g - b) / delta) 6
        else if mx = g then (b - r) / delta + 2
        else (r - g) / delta + 4
      let h1 := h0 * 60
      if h1 < 0 then h1 + 360 else h1
    else 0
  let saturation : ℚ := if mx = 0 then 0 else delta / mx * 100
  let brightness : ℚ := mx * 100
  ⟨(jsRound hue : ℚ), (jsRound saturation : ℚ), (jsRound brightness : ℚ)⟩

/-- Node `Buffer.writeUInt8`: accepts exactly the integers in `[0,255]`
(out-of-range values throw, modelled as `none`). -/
def writeUInt8 (v : ℤ) : Option ℕ :=
  if 0 ≤ v ∧ v < 256 then some v.toNat else none

/-- Node `Buffer.writeUInt16BE`: two big-endian bytes for an integer in
`[0,65535]` (out-of-range values throw, modelled as `none`). -/
def writeUInt16BE (v : ℤ) : Option (List ℕ) :=
  if 0 ≤ v ∧ v < 65536 then some [v.toNat / 256, v.toNat % 256] else none

/-- The per-panel write loop of `buildV1Packet`: 7 bytes
`id, 1, r, g, b, 0, 1` for each entry. -/
def buildV1Entries : List (ℤ × RGBColor) → Option (List ℕ)
  | [] => some []
  | pc :: rest => do
      let pid ← writeUInt8 pc.1
      let fr ← writeUInt8 1
      let cr ← writeUInt8 pc.2.r
      let cg ← writeUInt8 pc.2.g
      let cb ← writeUInt8 pc.2.b
      let wh ← writeUInt8 0
      let tt ← writeUInt8 1
      let more ← buildV1Entries rest
      pure ([pid, fr, cr, cg, cb, wh, tt] ++ more)

/-- `NanoleafClient.buildV1Packet`: one byte of panel count, then per panel
7 bytes `id, 1, r, g, b, 0, 1`. -/
def buildV1Packet (panels : List (ℤ × RGBColor)) : Option (List ℕ) := do
  let cnt ← writeUInt8 (panels.length : ℤ)
  let body ← buildV1Entries panels
  pure (cnt :: body)

/-- The per-panel write loop of `buildV2Packet`: 8 bytes
`id_hi, id_lo, r, g, b, 0, 0, 1` for each entry. -/
def buildV2Entries : List (ℤ × RGBColor) → Option (List ℕ)
  | [] => some []
  | pc :: rest => do
      let pid ← writeUInt16BE pc.1
      let cr ← writeUInt8 pc.2.r
      let cg ← writeUInt8 pc.2.g
      let cb ← writeUInt8 pc.2.b
      let wh ← writeUInt8 0
      let tt ← writeUInt16BE 1
      let more ← buildV2Entries rest
      pure (pid ++ [cr, cg, cb, wh] ++ tt ++ more)

/-- `NanoleafClient.buildV2Packet`: two big-endian bytes of panel count,
then per panel 8 bytes `id_hi, id_lo, r, g, b, 0, 0, 1`. -/
def buildV2Packet (panels : List (ℤ × RGBColor)) : Option (List ℕ) := do
  let cnt ← writeUInt16BE (panels.length : ℤ)
  let body ← buildV2Entries panels
  pure (cnt ++ body)

/-- Big-endian read of the 1-byte count field at offset 0, modelling the
decode step of the spec's codec round-trip property. -/
def readUInt8 (bytes : List ℕ) : ℕ := bytes.headD 0

/-- Big-endian read of the 2-byte count field at offset 0, modelling the
decode step of the spec's codec round-trip property. -/
def readUInt16BE (bytes : List ℕ) : ℕ := 256 * bytes.headD 0 + bytes.tail.headD 0

end NanoleafClient

/-- `PanelPosition`: vendor panel descriptor. -/
structure PanelPosition where
  panelId : ℤ
  x : ℚ
  y : ℚ
  o : ℚ
  shapeType : ℤ
deriving DecidableEq, Repr

/-- The fields of the vendor `GET /` device-state response that the
modelled operations consume. -/
structure DeviceInfo where
  name : String
  model : String
  stateOnValue : Bool
  brightnessValue : ℚ
  hueValue : ℚ
  satValue : ℚ
  ctValue : ℚ
  effectsSelect : String
  numPanels : ℤ
  sideLength : ℚ
  positionData : List PanelPosition
deriving DecidableEq, Repr

/-- Bounding box of a panel layout. -/
structure LayoutBounds where
  minX : ℚ
  maxX : ℚ
  minY : ℚ
  maxY : ℚ
  width : ℚ
  height : ℚ
deriving DecidableEq, Repr

/-- `PanelLayout` as returned by `getPanelLayout`. -/
structure PanelLayout where
  numPanels : ℤ
  sideLength : ℚ
  positions : List PanelPosition
  bounds : LayoutBounds
deriving DecidableEq, Repr

/-- Insertion-ordered association-list model of a JS `Map`: `set` replaces
in place when the key exists, appends otherwise. -/
def mapSet {κ α : Type} [DecidableEq κ] : List (κ × α) → κ → α → List (κ × α)
  | [], k, v => [(k, v)]
  | (k', v') :: rest, k, v =>
      if k' = k then (k, v) :: rest else (k', v') :: mapSet rest k v

/-- JS `Map.get`. -/
def mapGet {κ α : Type} [DecidableEq κ] (m : List (κ × α)) (k : κ) : Option α :=
  (m.find? (fun e => decide (e.1 = k))).map (·.2)

/-- JS `Map.has`. -/
def mapHas {κ α : Type} [DecidableEq κ] (m : List (κ × α)) (k : κ) : Bool :=
  (mapGet m k).isSome

/-- JS `Map.delete` (the removal itself). -/
def mapDelete {κ α : Type} [DecidableEq κ] (m : List (κ × α)) (k : κ) : List (κ × α) :=
  m.filter (fun e => !decide (e.1 = k))

namespace NanoleafClient

/-- The HTTP requests issued by the modelled client operations, in order. -/
inductive Request where
  | getInfoReq
  | putState (onVal : Option Bool) (brightness : Option ℚ) (hue : Option ℚ)
      (sat : Option ℚ) (ct : Option ℚ)
  | putEffectsStaticDisplay (entries : List (ℤ × RGBColor))
deriving DecidableEq, Repr

/-- Per-connection mutable state relevant to the modelled operations:
the lazily-filled cache of emitting-panel ids. -/
structure ClientState where
  cachedLightPanelIds : Option (List ℤ) := none
deriving DecidableEq, Repr

/-- `NanoleafClient.getPanelLayout` applied to a fetched device state:
bounding box from panel coordinates, all-zero when there are no panels. -/
def getPanelLayout (info : DeviceInfo) : PanelLayout :=
  match info.positionData with
  | [] => ⟨0, info.sideLength, [], ⟨0, 0, 0, 0, 0, 0⟩⟩
  | p :: ps =>
      let minX := (ps.map (·.x)).foldl min p.x
      let maxX := (ps.map (·.x)).foldl max p.x
      let minY := (ps.map (·.y)).foldl min p.y
      let maxY := (ps.map (·.y)).foldl max p.y
      ⟨info.numPanels, info.sideLength, p :: ps,
        ⟨minX, maxX, minY, maxY, maxX - minX, maxY - minY⟩⟩

/-- `NanoleafClient.getLightPanelIds`: cached ids of panels whose
`shapeType` is not the reserved controller value 12.  Returns the ids, the
updated connection state and the HTTP requests issued. -/
def getLightPanelIds (cs : ClientState) (info : DeviceInfo) :
    List ℤ × ClientState × List Request :=
  match cs.cachedLightPanelIds with
  | some ids => (ids, cs, [])
  | none =>
      let layout := getPanelLayout info
      let ids := (layout.positions.filter (fun p => decide (p.shapeType ≠ 12))).map (·.panelId)
      (ids, ⟨some ids⟩, [Request.getInfoReq])

/-- `NanoleafClient.setPanelColors`: the one-shot static-effect write; the
`animData` payload entries are kept structured. -/
def setPanelColors (panelColors : List (ℤ × RGBColor)) : List Request :=
  [Request.putEffectsStaticDisplay panelColors]

/-- `NanoleafClient.setAllPanelsColor`: every light panel to one color. -/
def setAllPanelsColor (cs : ClientState) (info : DeviceInfo) (color : RGBColor) :
    ClientState × List Request :=
  let (ids, cs1, tr1) := getLightPanelIds cs info
  let panelColors := ids.foldl (fun m pid => mapSet m pid color) []
  (cs1, tr1 ++ setPanelColors panelColors)

/-- `NanoleafClient.ensureStaticMode`: read state; if the selected effect
is neither built-in static marker, freeze the current HSB as a static
per-panel write. -/
def ensureStaticMode (cs : ClientState) (info : DeviceInfo) :
    ClientState × List Request :=
  if info.effectsSelect = "*Solid*" ∨ info.effectsSelect = "*Static*" then
    (cs, [Request.getInfoReq])
  else
    let hsb : HSBColor := ⟨info.hueValue, info.satValue, info.brightnessValue⟩
    let rgb := hsbToRgb hsb
    let (cs1, tr1) := setAllPanelsColor cs info rgb
    (cs1, Request.getInfoReq :: tr1)

/-- `NanoleafClient.setBrightness`. -/
def setBrightness (cs : ClientState) (info : DeviceInfo) (brightness : ℚ) :
    ClientState × List Request :=
  let (cs1, tr1) := ensureStaticMode cs info
  let value := max 0 (min 100 brightness)
  (cs1, tr1 ++ [Request.putState none (some value) none none none])

/-- `NanoleafClient.setHue`. -/
def setHue (cs : ClientState) (info : DeviceInfo) (hue : ℚ) :
    ClientState × List Request :=
  let (cs1, tr1) := ensureStaticMode cs info
  let value := max 0 (min 360 hue)
  (cs1, tr1 ++ [Request.putState none none (some value) none none])

/-- `NanoleafClient.setSaturation`. -/
def setSaturation (cs : ClientState) (info : DeviceInfo) (saturation : ℚ) :
    ClientState × List Request :=
  let (cs1, tr1) := ensureStaticMode cs info
  let value := max 0 (min 100 saturation)
  (cs1, tr1 ++ [Request.putState none none none (some value) none])

/-- `NanoleafClient.setColorTemperature`. -/
def setColorTemperature (cs : ClientState) (info : DeviceInfo) (ct : ℚ) :
    ClientState × List Request :=
  let (cs1, tr1) := ensureStaticMode cs info
  let value := max 1200 (min 6500 ct)
  (cs1, tr1 ++ [Request.putState none none none none (some value)])

/-- `NanoleafClient.setColor`: delegates to `setAllPanelsColor`. -/
def setColor (cs : ClientState) (info : DeviceInfo) (color : RGBColor) :
    ClientState × List Request :=
  setAllPanelsColor cs info color

/-- Argument object of `NanoleafClient.setState`. -/
structure StateArgs where
  onVal : Option Bool := none
  brightness : Option ℚ := none
  hue : Option ℚ := none
  saturation : Option ℚ := none
  ct : Option ℚ := none
deriving DecidableEq, Repr

/-- `NanoleafClient.setState`: sparse combined write, clamping each
provided numeric field. -/
def setState (cs : ClientState) (info : DeviceInfo) (st : StateArgs) :
    ClientState × List Request :=
  let (cs1, tr1) := ensureStaticMode cs info
  (cs1, tr1 ++ [Request.putState st.onVal
    (st.brightness.map fun x => max 0 (min 100 x))
    (st.hue.map fun x => max 0 (min 360 x))
    (st.saturation.map fun x => max 0 (min 100 x))
    (st.ct.map fun x => max 1200 (min 6500 x))])

end NanoleafClient

namespace NanoleafClientB

/-- `NanoleafClient.hsbToRgb` as duplicated in the second client source
file. -/
def hsbToRgb (color : HSBColor) : RGBColor :=
  let h := color.hue / 360
  let s := color.saturation / 100
  let v := color.brightness / 100
  let i : ℤ := ⌊h * 6⌋
  let f := h * 6 - (i : ℚ)
  let p := v * (1 - s)
  let q := v * (1 - f * s)
  let t := v * (1 - (1 - f) * s)
  let rgb : ℚ × ℚ × ℚ :=
    if Int.tmod i 6 = 0 then (v, t, p)
    else if Int.tmod i 6 = 1 then (q, v, p)
    else if Int.tmod i 6 = 2 then (p, v, t)
    else if Int.tmod i 6 = 3 then (p, q, v)
    else if Int.tmod i 6 = 4 then (t, p, v)
    else if Int.tmod i 6 = 5 then (v, p, q)
    else (0, 0, 0)
  ⟨jsRound (rgb.1 * 255), jsRound (rgb.2.1 * 255), jsRound (rgb.2.2 * 255)⟩

/-- `NanoleafClient.rgbToHsb` as duplicated in the second client source
file. -/
def rgbToHsb (color : RGBColor) : HSBColor :=
  let r : ℚ := (color.r : ℚ) / 255
  let g : ℚ := (color.g : ℚ) / 255
  let b : ℚ := (color.b : ℚ) / 255
  let mx := max r (max g b)
  let mn := min r (min g b)
  let delta := mx - mn
  let hue : ℚ :=
    if delta ≠ 0 then
      let h0 :=
        if mx = r then jsFmod ((g - b) / delta) 6
        else if mx = g then (b - r) / delta + 2
        else (r - g) / delta + 4
      let h1 := h0 * 60
      if h1 < 0 then h1 + 360 else h1
    else 0
  let saturation : ℚ := if mx = 0 then 0 else delta / mx * 100
  let brightness : ℚ := mx * 100
  ⟨(jsRound hue : ℚ), (jsRound saturation : ℚ), (jsRound brightness : ℚ)⟩

/-- The per-panel write loop of the second file's `buildV1Packet`. -/
def buildV1Entries : List (ℤ × RGBColor) → Option (List ℕ)
  | [] => some []
  | pc :: rest => do
      let pid ← NanoleafClient.writeUInt8 pc.1
      let fr ← NanoleafClient.writeUInt8 1
      let cr ← NanoleafClient.writeUInt8 pc.2.r
      let cg ← NanoleafClient.writeUInt8 pc.2.g
      let cb ← NanoleafClient.writeUInt8 pc.2.b
      let wh ← NanoleafClient.writeUInt8 0
      let tt ← NanoleafClient.writeUInt8 1
      let more ← buildV1Entries rest
      pure ([pid, fr, cr, cg, cb, wh, tt] ++ more)

/-- `NanoleafClient.buildV1Packet` as duplicated in the second client
source file. -/
def buildV1Packet (panels : List (ℤ × RGBColor)) : Option (List ℕ) := do
  let cnt ← NanoleafClient.writeUInt8 (panels.length : ℤ)
  let body ← buildV1Entries panels
  pure (cnt :: body)

/-- The per-panel write loop of the second file's `buildV2Packet`. -/
def buildV2Entries : List (ℤ × RGBColor) → Option (List ℕ)
  | [] => some []
  | pc :: rest => do
      let pid ← NanoleafClient.writeUInt16BE pc.1
      let cr ← NanoleafClient.writeUInt8 pc.2.r
      let cg ← NanoleafClient.writeUInt8 pc.2.g
      let cb ← NanoleafClient.writeUInt8 pc.2.b
      let wh ← NanoleafClient.writeUInt8 0
      let tt ← NanoleafClient.writeUInt16BE 1
      let more ← buildV2Entries rest
      pure (pid ++ [cr, cg, cb, wh] ++ tt ++ more)

/-- `NanoleafClient.buildV2Packet` as duplicated in the second client
source file. -/
def buildV2Packet (panels : List (ℤ × RGBColor)) : Option (List ℕ) := do
  let cnt ← NanoleafClient.writeUInt16BE (panels.length : ℤ)
  let body ← buildV2Entries panels
  pure (cnt ++ body)

end NanoleafClientB

/-- `RegisteredDevice`: a registry entry; the owned connection is
identified by the numeric id assigned at creation. -/
structure RegisteredDevice where
  aliasName : String
  ip : String
  authToken : String
  clientId : ℕ
  name : Option String := none
  model : Option String := none
deriving DecidableEq, Repr

/-- `DeviceManager`: alias-keyed insertion-ordered device map plus the
counter stamping newly created connections. -/
structure DeviceManager where
  devices : List (String × RegisteredDevice) := []
  nextClientId : ℕ := 0
deriving DecidableEq, Repr

namespace DeviceManager

/-- `DeviceManager.register`: stores a fresh connection under
`lowercase(alias or ip)`; an empty alias string is falsy in JS and falls
back to the ip. -/
def register (dm : DeviceManager) (ip authToken : String) (aliasArg : Option String) :
    RegisteredDevice × DeviceManager :=
  let aliasVal :=
    match aliasArg with
    | some a => if a = "" then ip else a
    | none => ip
  let key := jsToLower aliasVal
  let device : RegisteredDevice := ⟨aliasVal, ip, authToken, dm.nextClientId, none, none⟩
  (device, ⟨mapSet dm.devices key device, dm.nextClientId + 1⟩)

/-- `DeviceManager.remove`. -/
def remove (dm : DeviceManager) (aliasName : String) : Bool × DeviceManager :=
  (mapHas dm.devices (jsToLower aliasName),
    { dm with devices := mapDelete dm.devices (jsToLower aliasName) })

/-- Result of `DeviceManager.resolve`; the error constructors carry the
data embedded in the corresponding error messages. -/
inductive ResolveResult where
  | ok (device : RegisteredDevice)
  | notConfigured
  | ambiguous (aliases : List String)
  | notFound (param : String) (aliases : List String)
deriving DecidableEq, Repr

/-- `DeviceManager.resolve`: no devices → NotConfigured; no (or falsy)
identifier → sole device or AmbiguousSelection; identifier → lowercase
alias key lookup, then case-sensitive ip scan, then NotFound. -/
def resolve (dm : DeviceManager) (deviceParam : Option String) : ResolveResult :=
  if dm.devices.length = 0 then .notConfigured
  else
    let falsy := match deviceParam with | none => true | some s => s = ""
    if falsy then
      if dm.devices.length = 1 then
        match dm.devices with
        | (_, d) :: _ => .ok d
        | [] => .notConfigured
      else .ambiguous (dm.devices.map (·.2.aliasName))
    else
      let param := deviceParam.getD ""
      let lower := jsToLower param
      match mapGet dm.devices lower with
      | some d => .ok d
      | none =>
          match dm.devices.find? (fun e => decide (e.2.ip = param)) with
          | some e => .ok e.2
          | none => .notFound param (dm.devices.map (·.2.aliasName))

/-- The name/model pair reported by a reachable device. -/
structure FetchedInfo where
  name : String
  model : String
deriving DecidableEq, Repr

/-- The live-iteration loop of `DeviceManager.refreshNames` over the JS
`Map`: `done` holds the portion of the map before the iteration cursor,
`pending` the portion at and after it.  A re-keyed entry is appended at
the end of the map, so the live iterator visits it again.  Structural
fuel makes the function total; under the registry key invariant the
default fuel is never exhausted. -/
def refreshVisit (fetch : String → Option FetchedInfo) :
    ℕ → List (String × RegisteredDevice) → List (String × RegisteredDevice) →
      List (String × RegisteredDevice)
  | 0, done, pending => done ++ pending
  | _ + 1, done, [] => done
  | fuel + 1, done, (k, dev) :: tail =>
      match fetch dev.ip with
      | none => refreshVisit fetch fuel (done ++ [(k, dev)]) tail
      | some info =>
          let dev1 := { dev with name := some info.name, model := some info.model }
          if dev1.aliasName = dev1.ip ∧ info.name ≠ "" then
            let oldKey := jsToLower dev1.ip
            let newKey := jsToLower info.name
            if mapHas (done ++ (k, dev1) :: tail) newKey then
              refreshVisit fetch fuel (done ++ [(k, dev1)]) tail
            else
              refreshVisit fetch fuel
                (mapDelete done oldKey ++ (if k = oldKey then [] else [(k, dev1)]))
                (mapDelete tail oldKey ++ [(newKey, { dev1 with aliasName := info.name })])
          else refreshVisit fetch fuel (done ++ [(k, dev1)]) tail

/-- `DeviceManager.refreshNames`: best-effort per-device name/model fetch
with the alias-upgrade rule; `fetch` gives each device's `getInfo` outcome
(`none` = unreachable, swallowed). -/
def refreshNames (dm : DeviceManager) (fetch : String → Option FetchedInfo) :
    DeviceManager :=
  { dm with devices := refreshVisit fetch (2 * dm.devices.length + 1) [] dm.devices }

end DeviceManager

/-! ## Theorems -/

open NanoleafClient DeviceManager

lemma buildV1Entries_eq_second : ∀ p : List (ℤ × RGBColor),
    NanoleafClient.buildV1Entries p = NanoleafClientB.buildV1Entries p := by
  intro p
  induction p with
  | nil => rfl
  | cons hd tl ih => rw [NanoleafClient.buildV1Entries, NanoleafClientB.buildV1Entries, ih]

lemma buildV2Entries_eq_second : ∀ p : List (ℤ × RGBColor),
    NanoleafClient.buildV2Entries p = NanoleafClientB.buildV2Entries p := by
  intro p
  induction p with
  | nil => rfl
  | cons hd tl ih => rw [NanoleafClient.buildV2Entries, NanoleafClientB.buildV2Entries, ih]

/-- C9: the packet builders and color conversions duplicated across the
two client source files are extensionally equal. -/
theorem duplicate_implementation_equivalence :
    (∀ c : HSBColor, NanoleafClient.hsbToRgb c = NanoleafClientB.hsbToRgb c) ∧
    (∀ c : RGBColor, NanoleafClient.rgbToHsb c = NanoleafClientB.rgbToHsb c) ∧
    (∀ p : List (ℤ × RGBColor),
      NanoleafClient.buildV1Packet p = NanoleafClientB.buildV1Packet p) ∧
    (∀ p : List (ℤ × RGBColor),
      NanoleafClient.buildV2Packet p = NanoleafClientB.buildV2Packet p) :=
  ⟨fun _ => rfl, fun _ => rfl,
    fun p => by rw [NanoleafClient.buildV1Packet, NanoleafClientB.buildV1Packet,
      buildV1Entries_eq_second],
    fun p => by rw [NanoleafClient.buildV2Packet, NanoleafClientB.buildV2Packet,
      buildV2Entries_eq_second]⟩

/-- C6: every state-mutation operation writes its numeric input clamped to
its documented domain (brightness/saturation to `[0,100]`, hue to
`[0,360]`, color temperature to `[1200,6500]`), and in particular
`setHue 400` writes 360, `setColorTemperature 100` writes 1200 and
`setBrightness (-5)` writes 0. -/
theorem input_clamping (cs : ClientState) (info : DeviceInfo) (x : ℚ) (st : StateArgs) :
    (setBrightness cs info x).2 = (ensureStaticMode cs info).2 ++
      [Request.putState none (some (max 0 (min 100 x))) none none none] ∧
    (setHue cs info x).2 = (ensureStaticMode cs info).2 ++
      [Request.putState none none (some (max 0 (min 360 x))) none none] ∧
    (setSaturation cs info x).2 = (ensureStaticMode cs info).2 ++
      [Request.putState none none none (some (max 0 (min 100 x))) none] ∧
    (setColorTemperature cs info x).2 = (ensureStaticMode cs info).2 ++
      [Request.putState none none none none (some (max 1200 (min 6500 x)))] ∧
    (setState cs info st).2 = (ensureStaticMode cs info).2 ++
      [Request.putState st.onVal
        (st.brightness.map fun y => max 0 (min 100 y))
        (st.hue.map fun y => max 0 (min 360 y))
        (st.saturation.map fun y => max 0 (min 100 y))
        (st.ct.map fun y => max 1200 (min 6500 y))] ∧
    (setHue cs info 400).2 = (ensureStaticMode cs info).2 ++
      [Request.putState none none (some 360) none none] ∧
    (setColorTemperature cs info 100).2 = (ensureStaticMode cs info).2 ++
      [Request.putState none none none none (some 1200)] ∧
    (setBrightness cs info (-5)).2 = (ensureStaticMode cs info).2 ++
      [Request.putState none (some 0) none none none] := by
  refine ⟨rfl, rfl, rfl, rfl, rfl, ?_, ?_, ?_⟩
  · show (ensureStaticMode cs info).2 ++
        [Request.putState none none (some (max 0 (min 360 (400 : ℚ)))) none none] =
      (ensureStaticMode cs info).2 ++ [Request.putState none none (some 360) none none]
    norm_num
  · show (ensureStaticMode cs info).2 ++
        [Request.putState none none none none (some (max 1200 (min 6500 (100 : ℚ))))] =
      (ensureStaticMode cs info).2 ++ [Request.putState none none none none (some 1200)]
    norm_num
  · show (ensureStaticMode cs info).2 ++
        [Request.putState none (some (max 0 (min 100 (-5 : ℚ)))) none none none] =
      (ensureStaticMode cs info).2 ++ [Request.putState none (some 0) none none none]
    norm_num

/-- C6 witness at a concrete state. -/
theorem input_clamping_witness :
    (setHue ⟨none⟩ ⟨"", "", true, 0, 0, 0, 0, "*Static*", 0, 0, []⟩ 400).2 =
      (ensureStaticMode ⟨none⟩ ⟨"", "", true, 0, 0, 0, 0, "*Static*", 0, 0, []⟩).2 ++
        [Request.putState none none (some 360) none none] :=
  (input_clamping ⟨none⟩ ⟨"", "", true, 0, 0, 0, 0, "*Static*", 0, 0, []⟩ 0 {}).2.2.2.2.2.1

section Codec

lemma writeUInt8_eq_some {v : ℤ} (h0 : 0 ≤ v) (h1 : v < 256) :
    writeUInt8 v = some v.toNat := by
  rw [writeUInt8, if_pos ⟨h0, h1⟩]

lemma writeUInt16BE_eq_some {v : ℤ} (h0 : 0 ≤ v) (h1 : v < 65536) :
    writeUInt16BE v = some [v.toNat / 256, v.toNat % 256] := by
  rw [writeUInt16BE, if_pos ⟨h0, h1⟩]

lemma buildV1Entries_eq (panels : List (ℤ × RGBColor))
    (h : ∀ pc ∈ panels, 0 ≤ pc.1 ∧ pc.1 < 256 ∧ 0 ≤ pc.2.r ∧ pc.2.r < 256 ∧
      0 ≤ pc.2.g ∧ pc.2.g < 256 ∧ 0 ≤ pc.2.b ∧ pc.2.b < 256) :
    buildV1Entries panels = some ((panels.map fun pc =>
      [pc.1.toNat, 1, pc.2.r.toNat, pc.2.g.toNat, pc.2.b.toNat, 0, 1]).flatten) := by
  induction panels with
  | nil => rfl
  | cons hd tl ih =>
      have hhd := h hd (List.mem_cons_self hd tl)
      have htl := fun pc hpc => h pc (List.mem_cons_of_mem hd hpc)
      rw [buildV1Entries, writeUInt8_eq_some hhd.1 hhd.2.1,
        writeUInt8_eq_some hhd.2.2.1 hhd.2.2.2.1,
        writeUInt8_eq_some hhd.2.2.2.2.1 hhd.2.2.2.2.2.1,
        writeUInt8_eq_some hhd.2.2.2.2.2.2.1 hhd.2.2.2.2.2.2.2,
        ih htl]
      rfl

lemma buildV2Entries_eq (panels : List (ℤ × RGBColor))
    (h : ∀ pc ∈ panels, 0 ≤ pc.1 ∧ pc.1 < 65536 ∧ 0 ≤ pc.2.r ∧ pc.2.r < 256 ∧
      0 ≤ pc.2.g ∧ pc.2.g < 256 ∧ 0 ≤ pc.2.b ∧ pc.2.b < 256) :
    buildV2Entries panels = some ((panels.map fun pc =>
      [pc.1.toNat / 256, pc.1.toNat % 256,
        pc.2.r.toNat, pc.2.g.toNat, pc.2.b.toNat, 0, 0, 1]).flatten) := by
  induction panels with
  | nil => rfl
  | cons hd tl ih =>
      have hhd := h hd (List.mem_cons_self hd tl)
      have htl := fun pc hpc => h pc (List.mem_cons_of_mem hd hpc)
      rw [buildV2Entries, writeUInt16BE_eq_some hhd.1 hhd.2.1,
        writeUInt8_eq_some hhd.2.2.1 hhd.2.2.2.1,
        writeUInt8_eq_some hhd.2.2.2.2.1 hhd.2.2.2.2.2.1,
        writeUInt8_eq_some hhd.2.2.2.2.2.2.1 hhd.2.2.2.2.2.2.2,
        ih htl]
      rfl

lemma v1_flatten_length (panels : List (ℤ × RGBColor)) :
    ((panels.map fun pc =>
      [pc.1.toNat, 1, pc.2.r.toNat, pc.2.g.toNat, pc.2.b.toNat, 0, 1]).flatten).length =
    7 * panels.length := by
  induction panels with
  | nil => rfl
  | cons hd tl ih => simp [ih]; ring

lemma v2_flatten_length (panels : List (ℤ × RGBColor)) :
    ((panels.map fun pc =>
      [pc.1.toNat / 256, pc.1.toNat % 256,
        pc.2.r.toNat, pc.2.g.toNat, pc.2.b.toNat, 0, 0, 1]).flatten).length =
    8 * panels.length := by
  induction panels with
  | nil => rfl
  | cons hd tl ih => simp [ih]; ring

end Codec

/-- C2: the V1 frame is a 1-byte count plus 7 bytes per entry
`id, 1, r, g, b, 0, 1`; the V2 frame is a 2-byte big-endian count plus 8
bytes per entry `id(2, BE), r, g, b, 0, transition 1 (2, BE)`; frame
lengths are `1 + 7N` and `2 + 8N`, and decoding the count field of either
frame recovers `N`. -/
theorem streaming_codec_frames (panels : List (ℤ × RGBColor)) :
    ((panels.length < 256 ∧ ∀ pc ∈ panels,
        0 ≤ pc.1 ∧ pc.1 < 256 ∧ 0 ≤ pc.2.r ∧ pc.2.r < 256 ∧
        0 ≤ pc.2.g ∧ pc.2.g < 256 ∧ 0 ≤ pc.2.b ∧ pc.2.b < 256) →
      ∃ frame,
        buildV1Packet panels = some frame ∧
        frame = panels.length :: (panels.map fun pc =>
          [pc.1.toNat, 1, pc.2.r.toNat, pc.2.g.toNat, pc.2.b.toNat, 0, 1]).flatten ∧
        frame.length = 1 + 7 * panels.length ∧
        readUInt8 frame = panels.length) ∧
    ((panels.length < 65536 ∧ ∀ pc ∈ panels,
        0 ≤ pc.1 ∧ pc.1 < 65536 ∧ 0 ≤ pc.2.r ∧ pc.2.r < 256 ∧
        0 ≤ pc.2.g ∧ pc.2.g < 256 ∧ 0 ≤ pc.2.b ∧ pc.2.b < 256) →
      ∃ frame,
        buildV2Packet panels = some frame ∧
        frame = panels.length / 256 :: panels.length % 256 :: (panels.map fun pc =>
          [pc.1.toNat / 256, pc.1.toNat % 256,
            pc.2.r.toNat, pc.2.g.toNat, pc.2.b.toNat, 0, 0, 1]).flatten ∧
        frame.length = 2 + 8 * panels.length ∧
        readUInt16BE frame = panels.length) := by
  constructor
  · rintro ⟨hlen, hmem⟩
    have h0 : (0 : ℤ) ≤ (panels.length : ℤ) := Int.ofNat_nonneg _
    have h1 : (panels.length : ℤ) < 256 := by exact_mod_cast hlen
    have hcnt : writeUInt8 (panels.length : ℤ) = some panels.length := by
      rw [writeUInt8_eq_some h0 h1, Int.toNat_natCast]
    refine ⟨_, ?_, rfl, ?_, rfl⟩
    · rw [buildV1Packet, hcnt, buildV1Entries_eq panels hmem]
      rfl
    · rw [List.length_cons, v1_flatten_length panels]
      ring
  · rintro ⟨hlen, hmem⟩
    have h0 : (0 : ℤ) ≤ (panels.length : ℤ) := Int.ofNat_nonneg _
    have h1 : (panels.length : ℤ) < 65536 := by exact_mod_cast hlen
    have hcnt : writeUInt16BE (panels.length : ℤ) =
        some [panels.length / 256, panels.length % 256] := by
      rw [writeUInt16BE_eq_some h0 h1, Int.toNat_natCast]
    refine ⟨_, ?_, rfl, ?_, ?_⟩
    · rw [buildV2Packet, hcnt, buildV2Entries_eq panels hmem]
      rfl
    · rw [List.length_cons, List.length_cons, v2_flatten_length panels]
      ring
    · show 256 * (panels.length / 256) + panels.length % 256 = panels.length
      exact Nat.div_add_mod panels.length 256

/-- C2 witness at a concrete panel list. -/
theorem streaming_codec_frames_witness :
    (∃ frame,
        buildV1Packet [((3 : ℤ), (⟨1, 2, 3⟩ : RGBColor))] = some frame ∧
        frame = [((3:ℤ), (⟨1,2,3⟩ : RGBColor))].length :: ([((3:ℤ), (⟨1,2,3⟩ : RGBColor))].map fun pc =>
          [pc.1.toNat, 1, pc.2.r.toNat, pc.2.g.toNat, pc.2.b.toNat, 0, 1]).flatten ∧
        frame.length = 1 + 7 * [((3:ℤ), (⟨1,2,3⟩ : RGBColor))].length ∧
        readUInt8 frame = [((3:ℤ), (⟨1,2,3⟩ : RGBColor))].length) ∧
    (∃ frame,
        buildV2Packet [((300 : ℤ), (⟨1, 2, 3⟩ : RGBColor))] = some frame ∧
        frame = [((300:ℤ), (⟨1,2,3⟩ : RGBColor))].length / 256 ::
          [((300:ℤ), (⟨1,2,3⟩ : RGBColor))].length % 256 ::
          ([((300:ℤ), (⟨1,2,3⟩ : RGBColor))].map fun pc =>
          [pc.1.toNat / 256, pc.1.toNat % 256,
            pc.2.r.toNat, pc.2.g.toNat, pc.2.b.toNat, 0, 0, 1]).flatten ∧
        frame.length = 2 + 8 * [((300:ℤ), (⟨1,2,3⟩ : RGBColor))].length ∧
        readUInt16BE frame = [((300:ℤ), (⟨1,2,3⟩ : RGBColor))].length) :=
  ⟨(streaming_codec_frames [((3:ℤ), (⟨1,2,3⟩ : RGBColor))]).1 (by norm_num),
    (streaming_codec_frames [((300:ℤ), (⟨1,2,3⟩ : RGBColor))]).2 (by norm_num)⟩

section RegistryLemmas

lemma mapGet_mapSet_self {κ α : Type} [DecidableEq κ] (m : List (κ × α)) (k : κ) (v : α) :
    mapGet (mapSet m k v) k = some v := by
  induction m with
  | nil => simp [mapSet, mapGet]
  | cons hd tl ih =>
      by_cases hk : hd.1 = k
      · simp [mapSet, hk, mapGet]
      · simpa [mapSet, hk, mapGet, List.find?] using ih

lemma mapSet_length_of_has {κ α : Type} [DecidableEq κ] (m : List (κ × α)) (k : κ) (v : α)
    (h : mapHas m k = true) : (mapSet m k v).length = m.length := by
  induction m with
  | nil => simp [mapHas, mapGet] at h
  | cons hd tl ih =>
      by_cases hk : hd.1 = k
      · simp [mapSet, hk]
      · have h' : mapHas tl k = true := by
          simpa [mapHas, mapGet, List.find?, hk] using h
        simp [mapSet, hk, ih h']

lemma mapSet_length_pos {κ α : Type} [DecidableEq κ] (m : List (κ × α)) (k : κ) (v : α) :
    0 < (mapSet m k v).length := by
  cases m with
  | nil => simp [mapSet]
  | cons hd tl =>
      by_cases hk : hd.1 = k <;> simp [mapSet, hk]

lemma mapGet_of_nodup_mem {κ α : Type} [DecidableEq κ] (m : List (κ × α)) (k : κ) (d : α)
    (hnd : (m.map Prod.fst).Nodup) (hm : (k, d) ∈ m) : mapGet m k = some d := by
  induction m with
  | nil => simp at hm
  | cons hd tl ih =>
      rcases List.mem_cons.mp hm with heq | hmem
      · subst heq
        simp [mapGet, List.find?]
      · have hk : hd.1 ≠ k := by
          intro hcontra
          have : hd.1 ∈ tl.map Prod.fst :=
            List.mem_map.mpr ⟨(k, d), hmem, hcontra.symm⟩
          exact (List.nodup_cons.mp hnd).1 this
        have := ih (List.nodup_cons.mp hnd).2 hmem
        simpa [mapGet, List.find?, hk] using this

end RegistryLemmas

/-- C3: `resolve` returns NotConfigured on an empty registry regardless of
identifier; with no identifier it returns the sole device or an
AmbiguousSelection error naming all aliases; with an identifier the
case-insensitive alias match wins, else the first case-sensitive ip match,
else NotFound naming all aliases. -/
theorem registry_resolution (dm : DeviceManager) :
    (∀ p, dm.devices = [] → resolve dm p = ResolveResult.notConfigured) ∧
    (∀ k d, dm.devices = [(k, d)] → resolve dm none = ResolveResult.ok d) ∧
    (1 < dm.devices.length → resolve dm none =
      ResolveResult.ambiguous (dm.devices.map (·.2.aliasName))) ∧
    (∀ s : String, s ≠ "" → dm.devices ≠ [] →
      (∀ d, mapGet dm.devices (jsToLower s) = some d →
        resolve dm (some s) = ResolveResult.ok d) ∧
      ((∀ e ∈ dm.devices, e.1 = jsToLower e.2.aliasName) →
        (dm.devices.map Prod.fst).Nodup →
        ∀ k d, (k, d) ∈ dm.devices → jsToLower d.aliasName = jsToLower s →
          resolve dm (some s) = ResolveResult.ok d) ∧
      (mapGet dm.devices (jsToLower s) = none →
        ∀ e, dm.devices.find? (fun e => decide (e.2.ip = s)) = some e →
          resolve dm (some s) = ResolveResult.ok e.2) ∧
      (mapGet dm.devices (jsToLower s) = none →
        dm.devices.find? (fun e => decide (e.2.ip = s)) = none →
          resolve dm (some s) =
            ResolveResult.notFound s (dm.devices.map (·.2.aliasName)))) := by
  refine ⟨?_, ?_, ?_, ?_⟩
  · intro p hempty
    simp [resolve, hempty]
  · intro k d hsingle
    simp [resolve, hsingle]
  · intro hlen
    have hne : dm.devices.length ≠ 0 := by omega
    have hne1 : dm.devices.length ≠ 1 := by omega
    simp [resolve, hne, hne1]
  · intro s hs hne
    have hlen : dm.devices.length ≠ 0 := by
      simpa [List.length_eq_zero] using hne
    refine ⟨?_, ?_, ?_, ?_⟩
    · intro d hget
      simp [resolve, hlen, hs, hget]
    · intro hinv hnd k d hmem halias
      have hkey : k = jsToLower s := by
        have := hinv (k, d) hmem
        simpa [halias] using this
      subst hkey
      have hget := mapGet_of_nodup_mem dm.devices (jsToLower s) d hnd hmem
      simp [resolve, hlen, hs, hget]
    · intro hget e hfind
      simp [resolve, hlen, hs, hget, hfind]
    · intro hget hfind
      simp [resolve, hlen, hs, hget, hfind]

/-- C3 witness at a concrete two-device registry. -/
theorem registry_resolution_witness :
    resolve ⟨[("a", ⟨"a", "10.0.0.1", "t", 0, none, none⟩),
              ("b", ⟨"b", "10.0.0.2", "u", 1, none, none⟩)], 2⟩ none =
      ResolveResult.ambiguous ["a", "b"] :=
  (registry_resolution ⟨[("a", ⟨"a", "10.0.0.1", "t", 0, none, none⟩),
    ("b", ⟨"b", "10.0.0.2", "u", 1, none, none⟩)], 2⟩).2.2.1 (by norm_num)

/-- C10: `register` never fails; registering an already-used key silently
replaces the entry without growing the registry, and the key afterwards
resolves to the newly created connection (so the previous device is no
longer reachable under it). -/
theorem register_silent_overwrite (dm : DeviceManager) (ip tok : String)
    (aliasArg : Option String) :
    (register dm ip tok aliasArg).1 =
      ⟨(match aliasArg with
          | some a => if a = "" then ip else a
          | none => ip), ip, tok, dm.nextClientId, none, none⟩ ∧
    mapGet (register dm ip tok aliasArg).2.devices
        (jsToLower (register dm ip tok aliasArg).1.aliasName) =
      some (register dm ip tok aliasArg).1 ∧
    (mapHas dm.devices (jsToLower (register dm ip tok aliasArg).1.aliasName) = true →
      (register dm ip tok aliasArg).2.devices.length = dm.devices.length) ∧
    ((register dm ip tok aliasArg).1.aliasName ≠ "" →
      resolve (register dm ip tok aliasArg).2
          (some (register dm ip tok aliasArg).1.aliasName) =
        ResolveResult.ok (register dm ip tok aliasArg).1) ∧
    (∀ dOld : RegisteredDevice, dOld.clientId < dm.nextClientId →
      mapGet (register dm ip tok aliasArg).2.devices
          (jsToLower (register dm ip tok aliasArg).1.aliasName) ≠ some dOld) := by
  have hdev : (register dm ip tok aliasArg).1 =
      ⟨(match aliasArg with
          | some a => if a = "" then ip else a
          | none => ip), ip, tok, dm.nextClientId, none, none⟩ := rfl
  have hmap : (register dm ip tok aliasArg).2.devices =
      mapSet dm.devices (jsToLower (register dm ip tok aliasArg).1.aliasName)
        (register dm ip tok aliasArg).1 := rfl
  refine ⟨hdev, ?_, ?_, ?_, ?_⟩
  · rw [hmap]
    exact mapGet_mapSet_self _ _ _
  · intro hhas
    rw [hmap]
    exact mapSet_length_of_has _ _ _ hhas
  · intro hne
    have hpos : (register dm ip tok aliasArg).2.devices.length ≠ 0 := by
      rw [hmap]
      have := mapSet_length_pos dm.devices
        (jsToLower (register dm ip tok aliasArg).1.aliasName) (register dm ip tok aliasArg).1
      omega
    have hget : mapGet (register dm ip tok aliasArg).2.devices
        (jsToLower (register dm ip tok aliasArg).1.aliasName) =
        some (register dm ip tok aliasArg).1 := by
      rw [hmap]
      exact mapGet_mapSet_self _ _ _
    simp [resolve, hpos, hne, hget]
  · intro dOld hlt hcontra
    have hget : mapGet (register dm ip tok aliasArg).2.devices
        (jsToLower (register dm ip tok aliasArg).1.aliasName) =
        some (register dm ip tok aliasArg).1 := by
      rw [hmap]
      exact mapGet_mapSet_self _ _ _
    rw [hget] at hcontra
    have : (register dm ip tok aliasArg).1 = dOld := by
      exact Option.some_injective _ hcontra
    rw [hdev] at this
    rw [← this] at hlt
    simp at hlt

/-- C10 witness: re-registering the key "a" of a one-device registry. -/
theorem register_silent_overwrite_witness :
    (register ⟨[("a", ⟨"a", "10.0.0.1", "t", 0, none, none⟩)], 1⟩
        "10.0.0.9" "tok" (some "a")).2.devices.length = 1 :=
  (register_silent_overwrite ⟨[("a", ⟨"a", "10.0.0.1", "t", 0, none, none⟩)], 1⟩
    "10.0.0.9" "tok" (some "a")).2.2.1 (by rfl)

section TraceLemmas

lemma mapSet_keys (m : List (ℤ × RGBColor)) (k : ℤ) (v : RGBColor) :
    ((mapSet m k v).map Prod.fst).Perm (if k ∈ m.map Prod.fst then m.map Prod.fst
      else m.map Prod.fst ++ [k]) := by
  induction m with
  | nil => simp [mapSet]
  | cons hd tl ih =>
      by_cases hk : hd.1 = k
      · subst hk
        simp [mapSet]
      · rw [mapSet, if_neg hk]
        by_cases hmem : k ∈ tl.map Prod.fst
        · simp only [List.map_cons, List.mem_cons, hmem, or_true, if_pos]
          have := ih
          rw [if_pos hmem] at this
          simpa using this.cons hd.1
        · have hne : ¬ (k = hd.1 ∨ k ∈ tl.map Prod.fst) := by
            rintro (rfl | h)
            · exact hk rfl
            · exact hmem h
          simp only [List.map_cons, List.mem_cons, if_neg hne]
          have := ih
          rw [if_neg hmem] at this
          simpa using this.cons hd.1

lemma nodup_keys_mapSet (m : List (ℤ × RGBColor)) (k : ℤ) (v : RGBColor)
    (h : (m.map Prod.fst).Nodup) : ((mapSet m k v).map Prod.fst).Nodup := by
  refine (mapSet_keys m k v).nodup_iff.mpr ?_
  by_cases hmem : k ∈ m.map Prod.fst
  · rwa [if_pos hmem]
  · rw [if_neg hmem, List.nodup_append]
    refine ⟨h, List.nodup_singleton _, ?_⟩
    intro a ha hb
    rw [List.mem_singleton] at hb
    subst hb
    exact hmem ha

lemma mapSet_mem_iff (m : List (ℤ × RGBColor)) (k k' : ℤ) (v v' : RGBColor)
    (hnd : (m.map Prod.fst).Nodup) :
    (k', v') ∈ mapSet m k v ↔ (k' = k ∧ v' = v) ∨ ((k', v') ∈ m ∧ k' ≠ k) := by
  induction m with
  | nil =>
      simp only [mapSet, List.mem_singleton, List.not_mem_nil, false_and, or_false,
        Prod.mk.injEq]
  | cons hd tl ih =>
      rw [List.map_cons, List.nodup_cons] at hnd
      obtain ⟨hnd1, hnd2⟩ := hnd
      by_cases hk : hd.1 = k
      · rw [mapSet, if_pos hk]
        constructor
        · intro hmem
          rcases List.mem_cons.mp hmem with heq | hmem'
          · exact Or.inl ⟨congrArg Prod.fst heq, congrArg Prod.snd heq⟩
          · have hne : k' ≠ k := by
              intro hcon
              apply hnd1
              rw [hk]
              exact List.mem_map.mpr ⟨(k', v'), hmem', hcon⟩
            exact Or.inr ⟨List.mem_cons_of_mem hd hmem', hne⟩
        · rintro (⟨rfl, rfl⟩ | ⟨hmem, hne⟩)
          · exact List.mem_cons_self _ _
          · rcases List.mem_cons.mp hmem with heq | hmem'
            · exact absurd (hk ▸ congrArg Prod.fst heq) hne
            · exact List.mem_cons_of_mem _ hmem'
      · rw [mapSet, if_neg hk]
        constructor
        · intro hmem
          rcases List.mem_cons.mp hmem with heq | hmem'
          · have h1 : k' = hd.1 := congrArg Prod.fst heq
            have h2 : k' ≠ k := fun hcon => hk (h1 ▸ hcon)
            exact Or.inr ⟨heq ▸ List.mem_cons_self hd tl, h2⟩
          · rcases (ih hnd2).mp hmem' with ⟨h1, h2⟩ | ⟨hmem2, hne⟩
            · exact Or.inl ⟨h1, h2⟩
            · exact Or.inr ⟨List.mem_cons_of_mem hd hmem2, hne⟩
        · rintro (⟨rfl, rfl⟩ | ⟨hmem, hne⟩)
          · exact List.mem_cons_of_mem hd ((ih hnd2).mpr (Or.inl ⟨rfl, rfl⟩))
          · rcases List.mem_cons.mp hmem with heq | hmem'
            · exact heq ▸ List.mem_cons_self hd _
            · exact List.mem_cons_of_mem hd ((ih hnd2).mpr (Or.inr ⟨hmem', hne⟩))

lemma foldl_mapSet_mem (c : RGBColor) :
    ∀ (ids : List ℤ) (m : List (ℤ × RGBColor)), (m.map Prod.fst).Nodup →
      ∀ (pid : ℤ) (v : RGBColor),
      ((pid, v) ∈ ids.foldl (fun acc i => mapSet acc i c) m ↔
        (pid ∈ ids ∧ v = c) ∨ ((pid, v) ∈ m ∧ pid ∉ ids)) := by
  intro ids
  induction ids with
  | nil => intro m hnd pid v; simp
  | cons hd tl ih =>
      intro m hnd pid v
      rw [List.foldl_cons, ih (mapSet m hd c) (nodup_keys_mapSet m hd c hnd) pid v,
        mapSet_mem_iff m hd pid c v hnd]
      constructor
      · rintro (⟨hmem, rfl⟩ | ⟨(⟨rfl, rfl⟩ | ⟨hmem, hne⟩), hnotin⟩)
        · exact Or.inl ⟨List.mem_cons_of_mem hd hmem, rfl⟩
        · exact Or.inl ⟨List.mem_cons_self _ _, rfl⟩
        · exact Or.inr ⟨hmem, by simp [hne, hnotin]⟩
      · rintro (⟨hmem, rfl⟩ | ⟨hmem, hnotin⟩)
        · rcases List.mem_cons.mp hmem with rfl | htl
          · by_cases htl2 : pid ∈ tl
            · exact Or.inl ⟨htl2, rfl⟩
            · exact Or.inr ⟨Or.inl ⟨rfl, rfl⟩, htl2⟩
          · exact Or.inl ⟨htl, rfl⟩
        · have h1 : pid ≠ hd := fun hcon => hnotin (hcon ▸ List.mem_cons_self hd tl)
          have h2 : pid ∉ tl := fun hcon => hnotin (List.mem_cons_of_mem hd hcon)
          exact Or.inr ⟨Or.inr ⟨hmem, h1⟩, h2⟩

lemma getPanelLayout_positions (info : DeviceInfo) :
    (getPanelLayout info).positions = info.positionData := by
  rw [getPanelLayout]
  cases info.positionData <;> rfl

end TraceLemmas

/-- C1: each of the five state-mutation operations first reads the device
state; when the selected effect is not a built-in static marker it issues
one per-panel static-effect write — every entry colored with the
`hsbToRgb` conversion of the device's current hue/saturation/brightness —
before the state-field write; when the effect is a static marker only the
state-field write follows the read. -/
theorem static_mode_reconciliation (cs : ClientState) (info : DeviceInfo) :
    ((info.effectsSelect = "*Solid*" ∨ info.effectsSelect = "*Static*") →
      ensureStaticMode cs info = (cs, [Request.getInfoReq])) ∧
    (¬(info.effectsSelect = "*Solid*" ∨ info.effectsSelect = "*Static*") →
      ∃ pre entries,
        (ensureStaticMode cs info).2 =
          Request.getInfoReq :: (pre ++ [Request.putEffectsStaticDisplay entries]) ∧
        (∀ req ∈ pre, req = Request.getInfoReq) ∧
        (∀ pid v, (pid, v) ∈ entries →
          v = hsbToRgb ⟨info.hueValue, info.satValue, info.brightnessValue⟩)) ∧
    (∀ x, (setBrightness cs info x).2 = (ensureStaticMode cs info).2 ++
      [Request.putState none (some (max 0 (min 100 x))) none none none]) ∧
    (∀ x, (setHue cs info x).2 = (ensureStaticMode cs info).2 ++
      [Request.putState none none (some (max 0 (min 360 x))) none none]) ∧
    (∀ x, (setSaturation cs info x).2 = (ensureStaticMode cs info).2 ++
      [Request.putState none none none (some (max 0 (min 100 x))) none]) ∧
    (∀ x, (setColorTemperature cs info x).2 = (ensureStaticMode cs info).2 ++
      [Request.putState none none none none (some (max 1200 (min 6500 x)))]) ∧
    (∀ st, (setState cs info st).2 = (ensureStaticMode cs info).2 ++
      [Request.putState st.onVal
        (st.brightness.map fun y => max 0 (min 100 y))
        (st.hue.map fun y => max 0 (min 360 y))
        (st.saturation.map fun y => max 0 (min 100 y))
        (st.ct.map fun y => max 1200 (min 6500 y))]) ∧
    (ensureStaticMode cs info).2.head? = some Request.getInfoReq := by
  refine ⟨?_, ?_, fun x => rfl, fun x => rfl, fun x => rfl, fun x => rfl, fun st => rfl, ?_⟩
  · intro h
    simp [ensureStaticMode, h]
  · intro h
    rw [ensureStaticMode, if_neg h]
    cases hcache : cs.cachedLightPanelIds with
    | some ids =>
        refine ⟨[], ids.foldl (fun acc i => mapSet acc i
          (hsbToRgb ⟨info.hueValue, info.satValue, info.brightnessValue⟩)) [], ?_, ?_, ?_⟩
        · simp [setAllPanelsColor, getLightPanelIds, hcache, setPanelColors]
        · intro req hreq
          simp at hreq
        · intro pid v hmem
          have := (foldl_mapSet_mem _ ids [] (by simp) pid v).mp hmem
          rcases this with ⟨_, rfl⟩ | ⟨habs, _⟩
          · rfl
          · simp at habs
    | none =>
        refine ⟨[Request.getInfoReq],
          (((getPanelLayout info).positions.filter
            (fun p => decide (p.shapeType ≠ 12))).map (·.panelId)).foldl
            (fun acc i => mapSet acc i
              (hsbToRgb ⟨info.hueValue, info.satValue, info.brightnessValue⟩)) [],
          ?_, ?_, ?_⟩
        · simp [setAllPanelsColor, getLightPanelIds, hcache, setPanelColors]
        · intro req hreq
          simpa using hreq
        · intro pid v hmem
          have := (foldl_mapSet_mem _ _ [] (by simp) pid v).mp hmem
          rcases this with ⟨_, rfl⟩ | ⟨habs, _⟩
          · rfl
          · simp at habs
  · rw [ensureStaticMode]
    by_cases h : info.effectsSelect = "*Solid*" ∨ info.effectsSelect = "*Static*"
    · rw [if_pos h]
      rfl
    · rw [if_neg h]
      rfl

/-- C1 witness at a static-marker device state. -/
theorem static_mode_reconciliation_witness :
    ensureStaticMode ⟨none⟩ ⟨"", "", true, 0, 0, 0, 0, "*Static*", 0, 0, []⟩ =
      (⟨none⟩, [Request.getInfoReq]) :=
  (static_mode_reconciliation ⟨none⟩ ⟨"", "", true, 0, 0, 0, 0, "*Static*", 0, 0, []⟩).1
    (Or.inr rfl)

/-- C8: a whole-device color write addresses exactly the panel ids whose
shape type is not the reserved controller value 12; the id set is computed
from the layout fetched on the first such write and reused unchanged (no
further state fetch) by every later whole-device color write on the same
connection, even if the device would now report a different layout. -/
theorem controller_panel_exclusion (info info2 : DeviceInfo) (c c2 : RGBColor) :
    setColor ⟨none⟩ info c =
      (⟨some ((info.positionData.filter
          (fun p => decide (p.shapeType ≠ 12))).map (·.panelId))⟩,
        [Request.getInfoReq, Request.putEffectsStaticDisplay
          (((info.positionData.filter
            (fun p => decide (p.shapeType ≠ 12))).map (·.panelId)).foldl
            (fun acc i => mapSet acc i c) [])]) ∧
    (∀ pid v, (pid, v) ∈ (((info.positionData.filter
        (fun p => decide (p.shapeType ≠ 12))).map (·.panelId)).foldl
        (fun acc i => mapSet acc i c) []) ↔
      (∃ p ∈ info.positionData, p.shapeType ≠ 12 ∧ p.panelId = pid) ∧ v = c) ∧
    (∀ ids : List ℤ, setColor ⟨some ids⟩ info2 c2 =
      (⟨some ids⟩, [Request.putEffectsStaticDisplay
        (ids.foldl (fun acc i => mapSet acc i c2) [])])) := by
  refine ⟨?_, ?_, fun ids => rfl⟩
  · rw [setColor, setAllPanelsColor]
    show (_, [Request.getInfoReq] ++ setPanelColors _) = _
    rw [getPanelLayout_positions]
    rfl
  · intro pid v
    rw [foldl_mapSet_mem _ _ [] (by simp) pid v]
    simp only [List.mem_map, List.mem_filter, List.not_mem_nil, false_and, or_false,
      decide_eq_true_eq]
    constructor
    · rintro ⟨⟨p, ⟨hp, hshape⟩, hpid⟩, rfl⟩
      exact ⟨⟨p, hp, hshape, hpid⟩, rfl⟩
    · rintro ⟨⟨p, hp, hshape, hpid⟩, rfl⟩
      exact ⟨⟨p, ⟨hp, hshape⟩, hpid⟩, rfl⟩

section RoundLemmas

lemma jsRound_le_jsRound {a b : ℚ} (h : a ≤ b) : jsRound a ≤ jsRound b :=
  Int.floor_le_floor (by linarith)

lemma jsRound_intCast (n : ℤ) : jsRound (n : ℚ) = n := by
  rw [jsRound, Int.floor_eq_iff]
  constructor
  · push_cast
    linarith
  · push_cast
    linarith

lemma jsRound_nonneg {q : ℚ} (h : 0 ≤ q) : 0 ≤ jsRound q := by
  rw [jsRound]
  positivity

lemma jsRound_le_of_lt_half {q : ℚ} {c : ℤ} (h : q < (c : ℚ) + 1/2) : jsRound q ≤ c := by
  rw [jsRound]
  have : ⌊q + 1/2⌋ < c + 1 := Int.floor_lt.mpr (by push_cast; linarith)
  omega

lemma jsRound_bracket (q : ℚ) : (jsRound q : ℚ) ≤ q + 1/2 ∧ q - 1/2 < (jsRound q : ℚ) := by
  rw [jsRound]
  constructor
  · exact_mod_cast Int.floor_le _
  · have := Int.sub_one_lt_floor (q + 1/2)
    linarith

lemma jsFmod_self_of_lt {a : ℚ} (h1 : -6 < a) (h2 : a < 6) : jsFmod a 6 = a := by
  rw [jsFmod, jsTrunc]
  by_cases h : 0 ≤ a / 6
  · rw [if_pos h, Int.floor_eq_zero_iff.mpr (Set.mem_Ico.mpr ⟨h, by linarith⟩)]
    ring
  · rw [if_neg h]
    push_neg at h
    rw [Int.floor_eq_zero_iff.mpr (Set.mem_Ico.mpr ⟨by linarith, by linarith⟩)]
    ring

end RoundLemmas

lemma hue_expr_bounds (r g b mx mn : ℚ)
    (hmx_r : r ≤ mx) (hmx_g : g ≤ mx) (hmx_b : b ≤ mx)
    (hmn_r : mn ≤ r) (hmn_g : mn ≤ g) (hmn_b : mn ≤ b) :
    0 ≤ jsRound (if mx - mn ≠ 0 then
        (if (if mx = r then jsFmod ((g - b) / (mx - mn)) 6
            else if mx = g then (b - r) / (mx - mn) + 2
            else (r - g) / (mx - mn) + 4) * 60 < 0 then
          (if mx = r then jsFmod ((g - b) / (mx - mn)) 6
            else if mx = g then (b - r) / (mx - mn) + 2
            else (r - g) / (mx - mn) + 4) * 60 + 360
        else
          (if mx = r then jsFmod ((g - b) / (mx - mn)) 6
            else if mx = g then (b - r) / (mx - mn) + 2
            else (r - g) / (mx - mn) + 4) * 60)
      else 0) ∧ jsRound (if mx - mn ≠ 0 then
        (if (if mx = r then jsFmod ((g - b) / (mx - mn)) 6
            else if mx = g then (b - r) / (mx - mn) + 2
            else (r - g) / (mx - mn) + 4) * 60 < 0 then
          (if mx = r then jsFmod ((g - b) / (mx - mn)) 6
            else if mx = g then (b - r) / (mx - mn) + 2
            else (r - g) / (mx - mn) + 4) * 60 + 360
        else
          (if mx = r then jsFmod ((g - b) / (mx - mn)) 6
            else if mx = g then (b - r) / (mx - mn) + 2
            else (r - g) / (mx - mn) + 4) * 60)
      else 0) ≤ 360 := by
  have hd0 : 0 ≤ mx - mn := by linarith
  by_cases hd : mx - mn ≠ 0
  · have hdpos : 0 < mx - mn := lt_of_le_of_ne hd0 (Ne.symm hd)
    by_cases hmr : mx = r
    · have hub : (g - b) / (mx - mn) ≤ 1 := by
        rw [div_le_one hdpos]
        linarith
      have hlb : (-1 : ℚ) ≤ (g - b) / (mx - mn) := by
        rw [le_div_iff₀ hdpos]
        linarith
      have hfm : jsFmod ((g - b) / (mx - mn)) 6 = (g - b) / (mx - mn) :=
        jsFmod_self_of_lt (by linarith) (by linarith)
      rw [if_pos hd, if_pos hmr, hfm]
      by_cases hneg : (g - b) / (mx - mn) * 60 < 0
      · rw [if_pos hneg]
        exact ⟨jsRound_nonneg (by nlinarith),
          jsRound_le_of_lt_half (by push_cast; nlinarith)⟩
      · rw [if_neg hneg]
        push_neg at hneg
        exact ⟨jsRound_nonneg (by nlinarith),
          jsRound_le_of_lt_half (by push_cast; nlinarith)⟩
    · rw [if_pos hd, if_neg hmr]
      by_cases hmg : mx = g
      · have hub : (b - r) / (mx - mn) ≤ 1 := by
          rw [div_le_one hdpos]
          linarith
        have hlb : (-1 : ℚ) ≤ (b - r) / (mx - mn) := by
          rw [le_div_iff₀ hdpos]
          linarith
        rw [if_pos hmg]
        have hpos : ¬ ((b - r) / (mx - mn) + 2) * 60 < 0 := by nlinarith
        rw [if_neg hpos]
        exact ⟨jsRound_nonneg (by nlinarith),
          jsRound_le_of_lt_half (by push_cast; nlinarith)⟩
      · have hub : (r - g) / (mx - mn) ≤ 1 := by
          rw [div_le_one hdpos]
          linarith
        have hlb : (-1 : ℚ) ≤ (r - g) / (mx - mn) := by
          rw [le_div_iff₀ hdpos]
          linarith
        rw [if_neg hmg]
        have hpos : ¬ ((r - g) / (mx - mn) + 4) * 60 < 0 := by nlinarith
        rw [if_neg hpos]
        exact ⟨jsRound_nonneg (by nlinarith),
          jsRound_le_of_lt_half (by push_cast; nlinarith)⟩
  · rw [if_neg hd]
    exact ⟨jsRound_nonneg (by norm_num), jsRound_le_of_lt_half (by norm_num)⟩

lemma sat_expr_bounds (mx mn : ℚ) (h0 : 0 ≤ mn) (h1 : mn ≤ mx) (h2 : mx ≤ 1) :
    0 ≤ jsRound (if mx = 0 then 0 else (mx - mn) / mx * 100) ∧
      jsRound (if mx = 0 then 0 else (mx - mn) / mx * 100) ≤ 100 := by
  by_cases hmx : mx = 0
  · rw [if_pos hmx]
    exact ⟨jsRound_nonneg (by norm_num), jsRound_le_of_lt_half (by norm_num)⟩
  · have hmxpos : 0 < mx := lt_of_le_of_ne (le_trans h0 h1) (Ne.symm hmx)
    have hle : (mx - mn) / mx ≤ 1 := by
      rw [div_le_one hmxpos]
      linarith
    have hge : 0 ≤ (mx - mn) / mx := div_nonneg (by linarith) (by linarith)
    rw [if_neg hmx]
    exact ⟨jsRound_nonneg (by nlinarith),
      jsRound_le_of_lt_half (by push_cast; nlinarith)⟩

lemma bri_expr_bounds (mx : ℚ) (h0 : 0 ≤ mx) (h1 : mx ≤ 1) :
    0 ≤ jsRound (mx * 100) ∧ jsRound (mx * 100) ≤ 100 :=
  ⟨jsRound_nonneg (by nlinarith), jsRound_le_of_lt_half (by push_cast; nlinarith)⟩

/-- C5 (amended): for valid HSB inputs every `hsbToRgb` channel is in
`[0,255]`; for RGB inputs in `[0,255]` the `rgbToHsb` output has hue in
`[0,360]` (the value 360 is attained through rounding), saturation and
brightness in `[0,100]`. -/
theorem color_conversion_ranges :
    (∀ c : HSBColor, 0 ≤ c.hue → c.hue < 360 → 0 ≤ c.saturation → c.saturation ≤ 100 →
      0 ≤ c.brightness → c.brightness ≤ 100 →
      0 ≤ (NanoleafClient.hsbToRgb c).r ∧ (NanoleafClient.hsbToRgb c).r ≤ 255 ∧
      0 ≤ (NanoleafClient.hsbToRgb c).g ∧ (NanoleafClient.hsbToRgb c).g ≤ 255 ∧
      0 ≤ (NanoleafClient.hsbToRgb c).b ∧ (NanoleafClient.hsbToRgb c).b ≤ 255) ∧
    (∀ c : RGBColor, 0 ≤ c.r → c.r ≤ 255 → 0 ≤ c.g → c.g ≤ 255 → 0 ≤ c.b → c.b ≤ 255 →
      0 ≤ (NanoleafClient.rgbToHsb c).hue ∧ (NanoleafClient.rgbToHsb c).hue ≤ 360 ∧
      0 ≤ (NanoleafClient.rgbToHsb c).saturation ∧
      (NanoleafClient.rgbToHsb c).saturation ≤ 100 ∧
      0 ≤ (NanoleafClient.rgbToHsb c).brightness ∧
      (NanoleafClient.rgbToHsb c).brightness ≤ 100) := by
  constructor
  · intro c hh0 hh1 hs0 hs1 hb0 hb1
    simp only [NanoleafClient.hsbToRgb]
    have hfr0 : (0:ℚ) ≤ c.hue / 360 * 6 - (⌊c.hue / 360 * 6⌋ : ℚ) :=
      sub_nonneg.mpr (Int.floor_le _)
    have hfr1 : c.hue / 360 * 6 - (⌊c.hue / 360 * 6⌋ : ℚ) < 1 := by
      have := Int.lt_floor_add_one (c.hue / 360 * 6)
      linarith
    have hsx0 : (0:ℚ) ≤ c.saturation / 100 := by positivity
    have hsx1 : c.saturation / 100 ≤ 1 := by linarith
    have hvx0 : (0:ℚ) ≤ c.brightness / 100 := by positivity
    have hvx1 : c.brightness / 100 ≤ 1 := by linarith
    set s : ℚ := c.saturation / 100
    set v : ℚ := c.brightness / 100
    set f : ℚ := c.hue / 360 * 6 - (⌊c.hue / 360 * 6⌋ : ℚ) with hf
    have hp0 : (0:ℚ) ≤ v * (1 - s) := by nlinarith
    have hp1 : v * (1 - s) ≤ 1 := by nlinarith
    have hq0 : (0:ℚ) ≤ v * (1 - f * s) := by nlinarith
    have hq1 : v * (1 - f * s) ≤ 1 := by nlinarith
    have ht0 : (0:ℚ) ≤ v * (1 - (1 - f) * s) := by nlinarith
    have ht1 : v * (1 - (1 - f) * s) ≤ 1 := by nlinarith
    have key : ∀ w : ℚ, 0 ≤ w → w ≤ 1 →
        0 ≤ jsRound (w * 255) ∧ jsRound (w * 255) ≤ 255 := by
      intro w h0 h1
      refine ⟨jsRound_nonneg (by positivity), jsRound_le_of_lt_half ?_⟩
      push_cast
      nlinarith
    set rgbT : ℚ × ℚ × ℚ :=
      (if Int.tmod ⌊c.hue / 360 * 6⌋ 6 = 0 then (v, v * (1 - (1 - f) * s), v * (1 - s))
        else if Int.tmod ⌊c.hue / 360 * 6⌋ 6 = 1 then (v * (1 - f * s), v, v * (1 - s))
        else if Int.tmod ⌊c.hue / 360 * 6⌋ 6 = 2 then (v * (1 - s), v, v * (1 - (1 - f) * s))
        else if Int.tmod ⌊c.hue / 360 * 6⌋ 6 = 3 then (v * (1 - s), v * (1 - f * s), v)
        else if Int.tmod ⌊c.hue / 360 * 6⌋ 6 = 4 then (v * (1 - (1 - f) * s), v * (1 - s), v)
        else if Int.tmod ⌊c.hue / 360 * 6⌋ 6 = 5 then (v, v * (1 - s), v * (1 - f * s))
        else (0, 0, 0)) with hrgbT
    have hcomp : (0 ≤ rgbT.1 ∧ rgbT.1 ≤ 1) ∧ (0 ≤ rgbT.2.1 ∧ rgbT.2.1 ≤ 1) ∧
        (0 ≤ rgbT.2.2 ∧ rgbT.2.2 ≤ 1) := by
      rw [hrgbT]
      split_ifs <;>
        exact ⟨⟨by first | assumption | norm_num, by first | assumption | norm_num⟩,
          ⟨by first | assumption | norm_num, by first | assumption | norm_num⟩,
          ⟨by first | assumption | norm_num, by first | assumption | norm_num⟩⟩
    exact ⟨(key _ hcomp.1.1 hcomp.1.2).1, (key _ hcomp.1.1 hcomp.1.2).2,
      (key _ hcomp.2.1.1 hcomp.2.1.2).1, (key _ hcomp.2.1.1 hcomp.2.1.2).2,
      (key _ hcomp.2.2.1 hcomp.2.2.2).1, (key _ hcomp.2.2.1 hcomp.2.2.2).2⟩
  · intro c hr0 hr1 hg0 hg1 hb0 hb1
    simp only [NanoleafClient.rgbToHsb]
    have hr0' : (0:ℚ) ≤ (c.r : ℚ) / 255 := by positivity
    have hr1' : (c.r : ℚ) / 255 ≤ 1 := by
      rw [div_le_one (by norm_num)]
      exact_mod_cast hr1
    have hg0' : (0:ℚ) ≤ (c.g : ℚ) / 255 := by positivity
    have hg1' : (c.g : ℚ) / 255 ≤ 1 := by
      rw [div_le_one (by norm_num)]
      exact_mod_cast hg1
    have hb0' : (0:ℚ) ≤ (c.b : ℚ) / 255 := by positivity
    have hb1' : (c.b : ℚ) / 255 ≤ 1 := by
      rw [div_le_one (by norm_num)]
      exact_mod_cast hb1
    set r : ℚ := (c.r : ℚ) / 255
    set g : ℚ := (c.g : ℚ) / 255
    set b : ℚ := (c.b : ℚ) / 255
    have hmx_r : r ≤ max r (max g b) := le_max_left _ _
    have hmx_g : g ≤ max r (max g b) := le_trans (le_max_left _ _) (le_max_right _ _)
    have hmx_b : b ≤ max r (max g b) := le_trans (le_max_right _ _) (le_max_right _ _)
    have hmn_r : min r (min g b) ≤ r := min_le_left _ _
    have hmn_g : min r (min g b) ≤ g := le_trans (min_le_right _ _) (min_le_left _ _)
    have hmn_b : min r (min g b) ≤ b := le_trans (min_le_right _ _) (min_le_right _ _)
    have hmx0 : 0 ≤ max r (max g b) := le_trans hr0' hmx_r
    have hmx1 : max r (max g b) ≤ 1 := max_le hr1' (max_le hg1' hb1')
    have hmn0 : 0 ≤ min r (min g b) := le_min hr0' (le_min hg0' hb0')
    set mx : ℚ := max r (max g b)
    set mn : ℚ := min r (min g b)
    clear_value r g b mx mn
    have hd0 : 0 ≤ mx - mn := by
      have : mn ≤ mx := le_trans hmn_r hmx_r
      linarith
    have hueBounds := hue_expr_bounds r g b mx mn hmx_r hmx_g hmx_b hmn_r hmn_g hmn_b
    have satBounds := sat_expr_bounds mx mn hmn0 (le_trans hmn_r hmx_r) hmx1
    have briBounds := bri_expr_bounds mx hmx0 hmx1
    exact ⟨by exact_mod_cast hueBounds.1, by exact_mod_cast hueBounds.2,
      by exact_mod_cast satBounds.1, by exact_mod_cast satBounds.2,
      by exact_mod_cast briBounds.1, by exact_mod_cast briBounds.2⟩

/-- C5 witness at concrete in-range inputs. -/
theorem color_conversion_ranges_witness :
    (0 ≤ (NanoleafClient.hsbToRgb ⟨200, 80, 60⟩).r ∧
      (NanoleafClient.hsbToRgb ⟨200, 80, 60⟩).r ≤ 255 ∧
      0 ≤ (NanoleafClient.hsbToRgb ⟨200, 80, 60⟩).g ∧
      (NanoleafClient.hsbToRgb ⟨200, 80, 60⟩).g ≤ 255 ∧
      0 ≤ (NanoleafClient.hsbToRgb ⟨200, 80, 60⟩).b ∧
      (NanoleafClient.hsbToRgb ⟨200, 80, 60⟩).b ≤ 255) ∧
    (0 ≤ (NanoleafClient.rgbToHsb ⟨255, 0, 1⟩).hue ∧
      (NanoleafClient.rgbToHsb ⟨255, 0, 1⟩).hue ≤ 360 ∧
      0 ≤ (NanoleafClient.rgbToHsb ⟨255, 0, 1⟩).saturation ∧
      (NanoleafClient.rgbToHsb ⟨255, 0, 1⟩).saturation ≤ 100 ∧
      0 ≤ (NanoleafClient.rgbToHsb ⟨255, 0, 1⟩).brightness ∧
      (NanoleafClient.rgbToHsb ⟨255, 0, 1⟩).brightness ≤ 100) :=
  ⟨color_conversion_ranges.1 ⟨200, 80, 60⟩ (by norm_num) (by norm_num) (by norm_num)
      (by norm_num) (by norm_num) (by norm_num),
    color_conversion_ranges.2 ⟨255, 0, 1⟩ (by norm_num) (by norm_num) (by norm_num)
      (by norm_num) (by norm_num) (by norm_num)⟩

section RefreshLemmas

/-- The reachable-state invariant of the device registry: every key is the
lowercase of its entry's alias, and keys are unique. -/
def RegInv (devices : List (String × RegisteredDevice)) : Prop :=
  (∀ e ∈ devices, e.1 = jsToLower e.2.aliasName) ∧ (devices.map Prod.fst).Nodup

lemma mapDelete_eq_self {κ α : Type} [DecidableEq κ] (m : List (κ × α)) (k : κ)
    (h : ∀ e ∈ m, e.1 ≠ k) : mapDelete m k = m := by
  rw [mapDelete, List.filter_eq_self]
  intro e he
  simpa using h e he

lemma mapHas_eq_false_iff {κ α : Type} [DecidableEq κ] (m : List (κ × α)) (k : κ) :
    mapHas m k = false ↔ ∀ e ∈ m, e.1 ≠ k := by
  rw [mapHas, mapGet]
  cases hf : m.find? (fun e => decide (e.1 = k)) with
  | none =>
      rw [List.find?_eq_none] at hf
      simp only [Option.map_none', Option.isSome_none, eq_self_iff_true, true_iff]
      intro e he
      simpa using hf e he
  | some a =>
      have hdec := List.find?_some hf
      have hmem := List.mem_of_find?_eq_some hf
      simp only [Option.map_some', Option.isSome_some]
      constructor
      · intro h
        exact absurd h (by simp)
      · intro h
        exact absurd (of_decide_eq_true hdec) (h a hmem)

/-- The step measure of the live `refreshNames` iteration: each visit
consumes one unit, an alias upgrade consumes a second. -/
def refreshMeasure (pending : List (String × RegisteredDevice)) : ℕ :=
  pending.length + (pending.filter (fun e => decide (e.2.aliasName = e.2.ip))).length

lemma refreshMeasure_cons (e : String × RegisteredDevice)
    (l : List (String × RegisteredDevice)) :
    refreshMeasure (e :: l) =
      refreshMeasure l + 1 + (if e.2.aliasName = e.2.ip then 1 else 0) := by
  rw [refreshMeasure, refreshMeasure, List.length_cons, List.filter_cons]
  by_cases h : e.2.aliasName = e.2.ip
  · simp [h]
    omega
  · simp [h]
    omega

lemma refreshMeasure_append_single (l : List (String × RegisteredDevice))
    (e : String × RegisteredDevice) (h : e.2.aliasName ≠ e.2.ip) :
    refreshMeasure (l ++ [e]) = refreshMeasure l + 1 := by
  rw [refreshMeasure, refreshMeasure, List.length_append, List.filter_append,
    List.filter_cons, if_neg (by simpa using h)]
  simp only [List.filter_nil, List.append_nil, List.length_cons, List.length_nil]
  omega

lemma refreshMeasure_le (l : List (String × RegisteredDevice)) :
    refreshMeasure l ≤ 2 * l.length := by
  rw [refreshMeasure]
  have := List.length_filter_le (fun e => decide (e.2.aliasName = e.2.ip)) l
  omega

lemma jsToLower_congr {s t : String} (h : s = t) : jsToLower s = jsToLower t := by
  rw [h]

/-- The central induction over the live iteration: entries already behind
the cursor are preserved; entries ahead of it end up unchanged when their
fetch fails, and keep their key (name/model updated in place) when the
upgrade guard rejects them. -/
lemma refreshVisit_mem (fetch : String → Option DeviceManager.FetchedInfo) :
    ∀ (fuel : ℕ) (done pending : List (String × RegisteredDevice)),
      RegInv (done ++ pending) → refreshMeasure pending ≤ fuel →
      (∀ e ∈ done, e ∈ DeviceManager.refreshVisit fetch fuel done pending) ∧
      (∀ e ∈ pending, fetch e.2.ip = none →
        e ∈ DeviceManager.refreshVisit fetch fuel done pending) ∧
      (∀ e ∈ pending, ∀ info, fetch e.2.ip = some info →
        ¬(e.2.aliasName = e.2.ip ∧ info.name ≠ "") →
        (e.1, { e.2 with name := some info.name, model := some info.model }) ∈
          DeviceManager.refreshVisit fetch fuel done pending) := by
  intro fuel
  induction fuel with
  | zero =>
      intro done pending hinv hm
      have hp : pending = [] := by
        rw [refreshMeasure] at hm
        cases pending with
        | nil => rfl
        | cons a l => simp at hm
      subst hp
      refine ⟨?_, ?_, ?_⟩
      · intro e he
        rw [DeviceManager.refreshVisit]
        simpa using he
      · intro e he
        simp at he
      · intro e he
        simp at he
  | succ n ih =>
      intro done pending hinv hm
      cases pending with
      | nil =>
          refine ⟨?_, ?_, ?_⟩
          · intro e he
            rw [DeviceManager.refreshVisit]
            exact he
          · intro e he
            simp at he
          · intro e he
            simp at he
      | cons hd tl =>
          obtain ⟨k, dev⟩ := hd
          have hmtl : refreshMeasure tl + 1 ≤ n + 1 := by
            have := refreshMeasure_cons (k, dev) tl
            by_cases hai : dev.aliasName = dev.ip <;> simp [hai] at this <;> omega
          cases hfetch : fetch dev.ip with
          | none =>
              have hinv' : RegInv (done ++ [(k, dev)] ++ tl) := by
                rwa [List.append_assoc, List.singleton_append]
              have hres := ih (done ++ [(k, dev)]) tl hinv' (by omega)
              rw [DeviceManager.refreshVisit]
              simp only [hfetch]
              refine ⟨?_, ?_, ?_⟩
              · intro e he
                exact hres.1 e (List.mem_append_left _ he)
              · intro e he hef
                rcases List.mem_cons.mp he with rfl | he'
                · exact hres.1 _ (List.mem_append_right _ (List.mem_singleton.mpr rfl))
                · exact hres.2.1 _ he' hef
              · intro e he info hef hguard
                rcases List.mem_cons.mp he with rfl | he'
                · rw [hfetch] at hef
                  exact absurd hef (by simp)
                · exact hres.2.2 e he' info hef hguard
          | some info =>
              set dev1 : RegisteredDevice :=
                { dev with name := some info.name, model := some info.model } with hdev1
              rw [DeviceManager.refreshVisit]
              simp only [hfetch]
              by_cases hguard : dev1.aliasName = dev1.ip ∧ info.name ≠ ""
              · rw [if_pos hguard]
                by_cases hhas :
                    mapHas (done ++ (k, dev1) :: tl) (jsToLower info.name) = true
                · rw [if_pos hhas]
                  have hinv' : RegInv (done ++ [(k, dev1)] ++ tl) := by
                    obtain ⟨hkeys, hnd⟩ := hinv
                    constructor
                    · intro e he
                      rw [List.append_assoc, List.singleton_append] at he
                      rcases List.mem_append.mp he with he' | he'
                      · exact hkeys e (List.mem_append_left _ he')
                      · rcases List.mem_cons.mp he' with rfl | he''
                        · exact hkeys (k, dev) (List.mem_append_right _
                            (List.mem_cons_self _ _))
                        · exact hkeys e (List.mem_append_right _
                            (List.mem_cons_of_mem _ he''))
                    · have : (done ++ [(k, dev1)] ++ tl).map Prod.fst =
                          (done ++ (k, dev) :: tl).map Prod.fst := by
                        simp [List.append_assoc]
                      rw [this]
                      exact hnd
                  have hres := ih (done ++ [(k, dev1)]) tl hinv' (by omega)
                  refine ⟨?_, ?_, ?_⟩
                  · intro e he
                    exact hres.1 e (List.mem_append_left _ he)
                  · intro e he hef
                    rcases List.mem_cons.mp he with rfl | he'
                    · rw [hfetch] at hef
                      exact absurd hef (by simp)
                    · exact hres.2.1 e he' hef
                  · intro e he info2 hef hguard2
                    rcases List.mem_cons.mp he with rfl | he'
                    · rw [hfetch] at hef
                      have : info2 = info := by
                        injection hef with h
                        exact h.symm
                      subst this
                      exact absurd (by simpa [hdev1] using hguard) hguard2
                    · exact hres.2.2 e he' info2 hef hguard2
                · rw [if_neg (by simpa using hhas)]
                  -- upgrade branch
                  obtain ⟨hkeys, hnd⟩ := hinv
                  have hkval : k = jsToLower dev.aliasName :=
                    hkeys (k, dev) (List.mem_append_right _ (List.mem_cons_self _ _))
                  have haliasip : dev.aliasName = dev.ip := by
                    simpa [hdev1] using hguard.1
                  have hkold : k = jsToLower dev1.ip := by
                    rw [hkval, haliasip]
                  have hknotdone : ∀ e ∈ done, e.1 ≠ jsToLower dev1.ip := by
                    intro e he hcon
                    rw [List.map_append, List.nodup_append] at hnd
                    have h1 : e.1 ∈ done.map Prod.fst := List.mem_map.mpr ⟨e, he, rfl⟩
                    have h2 : e.1 ∈ ((k, dev) :: tl).map Prod.fst := by
                      rw [hcon, ← hkold]
                      simp
                    exact hnd.2.2 h1 h2
                  have hknottl : ∀ e ∈ tl, e.1 ≠ jsToLower dev1.ip := by
                    intro e he hcon
                    rw [List.map_append] at hnd
                    have := hnd.of_append_right
                    rw [List.map_cons, List.nodup_cons] at this
                    exact this.1 (by
                      rw [hkold, ← hcon]
                      exact List.mem_map.mpr ⟨e, he, rfl⟩)
                  rw [mapDelete_eq_self done _ hknotdone, mapDelete_eq_self tl _ hknottl,
                    if_pos hkold, List.append_nil]
                  have hhas' := (mapHas_eq_false_iff _ _).mp (by simpa using hhas)
                  set dev2 : RegisteredDevice := { dev1 with aliasName := info.name }
                    with hdev2
                  have hnameip : info.name ≠ dev.ip := by
                    intro hcon
                    exact hhas' (k, dev1)
                      (List.mem_append_right _ (List.mem_cons_self _ _))
                      (by rw [hkold, hcon])
                  have hinv' : RegInv (done ++ (tl ++ [(jsToLower info.name, dev2)])) := by
                    constructor
                    · intro e he
                      rcases List.mem_append.mp he with he' | he'
                      · exact hkeys e (List.mem_append_left _ he')
                      · rcases List.mem_append.mp he' with he'' | he''
                        · exact hkeys e (List.mem_append_right _
                            (List.mem_cons_of_mem _ he''))
                        · rw [List.mem_singleton.mp he'', hdev2]
                    · rw [List.map_append] at hnd
                      rw [List.map_append, List.map_append, List.map_singleton]
                      rw [List.map_cons, List.nodup_append] at hnd
                      obtain ⟨hndA, hndKT, hdisj⟩ := hnd
                      rw [List.nodup_cons] at hndKT
                      obtain ⟨hkT, hndT⟩ := hndKT
                      have hnkA : jsToLower info.name ∉ done.map Prod.fst := by
                        intro ha
                        obtain ⟨e, he, hee⟩ := List.mem_map.mp ha
                        exact hhas' e (List.mem_append_left _ he) hee
                      have hnkT : jsToLower info.name ∉ tl.map Prod.fst := by
                        intro ha
                        obtain ⟨e, he, hee⟩ := List.mem_map.mp ha
                        exact hhas' e (List.mem_append_right _
                          (List.mem_cons_of_mem _ he)) hee
                      show (done.map Prod.fst ++
                        (tl.map Prod.fst ++ [jsToLower info.name])).Nodup
                      rw [List.nodup_append]
                      refine ⟨hndA, ?_, ?_⟩
                      · rw [List.nodup_append]
                        refine ⟨hndT, List.nodup_singleton _, ?_⟩
                        intro a ha hb
                        rw [List.mem_singleton] at hb
                        subst hb
                        exact hnkT ha
                      · intro a ha hb
                        rcases List.mem_append.mp hb with hb' | hb'
                        · exact hdisj ha (List.mem_cons_of_mem _ hb')
                        · rw [List.mem_singleton] at hb'
                          subst hb'
                          exact hnkA ha
                  have hmeas : refreshMeasure (tl ++ [(jsToLower info.name, dev2)]) ≤ n := by
                    have h1 : dev2.aliasName ≠ dev2.ip := by
                      show info.name ≠ dev.ip
                      exact hnameip
                    rw [refreshMeasure_append_single tl _ h1]
                    have := refreshMeasure_cons (k, dev) tl
                    rw [if_pos haliasip] at this
                    omega
                  have hres := ih done (tl ++ [(jsToLower info.name, dev2)]) hinv' hmeas
                  refine ⟨?_, ?_, ?_⟩
                  · intro e he
                    exact hres.1 e he
                  · intro e he hef
                    rcases List.mem_cons.mp he with rfl | he'
                    · rw [hfetch] at hef
                      exact absurd hef (by simp)
                    · exact hres.2.1 e (List.mem_append_left _ he') hef
                  · intro e he info2 hef hguard2
                    rcases List.mem_cons.mp he with rfl | he'
                    · rw [hfetch] at hef
                      have : info2 = info := by
                        injection hef with h
                        exact h.symm
                      subst this
                      exact absurd ⟨haliasip, hguard.2⟩ hguard2
                    · exact hres.2.2 e (List.mem_append_left _ he') info2 hef hguard2
              · rw [if_neg hguard]
                have hinv' : RegInv (done ++ [(k, dev1)] ++ tl) := by
                  obtain ⟨hkeys, hnd⟩ := hinv
                  constructor
                  · intro e he
                    rw [List.append_assoc, List.singleton_append] at he
                    rcases List.mem_append.mp he with he' | he'
                    · exact hkeys e (List.mem_append_left _ he')
                    · rcases List.mem_cons.mp he' with rfl | he''
                      · exact hkeys (k, dev) (List.mem_append_right _
                          (List.mem_cons_self _ _))
                      · exact hkeys e (List.mem_append_right _
                          (List.mem_cons_of_mem _ he''))
                  · have : (done ++ [(k, dev1)] ++ tl).map Prod.fst =
                        (done ++ (k, dev) :: tl).map Prod.fst := by
                      simp [List.append_assoc]
                    rw [this]
                    exact hnd
                have hres := ih (done ++ [(k, dev1)]) tl hinv' (by omega)
                refine ⟨?_, ?_, ?_⟩
                · intro e he
                  exact hres.1 e (List.mem_append_left _ he)
                · intro e he hef
                  rcases List.mem_cons.mp he with rfl | he'
                  · rw [hfetch] at hef
                    exact absurd hef (by simp)
                  · exact hres.2.1 e he' hef
                · intro e he info2 hef hguard2
                  rcases List.mem_cons.mp he with rfl | he'
                  · rw [hfetch] at hef
                    have : info2 = info := by
                      injection hef with h
                      exact h.symm
                    subst this
                    exact hres.1 _ (List.mem_append_right _ (List.mem_singleton.mpr rfl))
                  · exact hres.2.2 e he' info2 hef hguard2

end RefreshLemmas

/-- C7: `refreshNames` never propagates a fetch failure (a failing entry
is left fully unchanged); a visited entry is re-keyed exactly when its
alias equals its raw ip, the reported name is non-empty and the name's
lowercase form is not already a key of the (live) registry — otherwise it
keeps its key with name/model updated in place; and an entry whose alias
already differs from its ip (as after an upgrade) is never re-keyed by a
subsequent `refreshNames` call. -/
theorem refreshNames_alias_upgrade (dm : DeviceManager)
    (fetch : String → Option DeviceManager.FetchedInfo) :
    (RegInv dm.devices →
      (∀ e ∈ dm.devices, fetch e.2.ip = none →
        e ∈ (DeviceManager.refreshNames dm fetch).devices) ∧
      (∀ e ∈ dm.devices, ∀ info, fetch e.2.ip = some info →
        ¬(e.2.aliasName = e.2.ip ∧ info.name ≠ "") →
        (e.1, { e.2 with name := some info.name, model := some info.model }) ∈
          (DeviceManager.refreshNames dm fetch).devices)) ∧
    (∀ (done tail : List (String × RegisteredDevice)) (k : String)
        (dev : RegisteredDevice) (fuel : ℕ),
      fetch dev.ip = none →
        DeviceManager.refreshVisit fetch (fuel + 1) done ((k, dev) :: tail) =
          DeviceManager.refreshVisit fetch fuel (done ++ [(k, dev)]) tail) ∧
    (∀ (done tail : List (String × RegisteredDevice)) (k : String)
        (dev : RegisteredDevice) (fuel : ℕ) (info : DeviceManager.FetchedInfo),
      fetch dev.ip = some info →
      (¬(dev.aliasName = dev.ip ∧ info.name ≠ "") →
        DeviceManager.refreshVisit fetch (fuel + 1) done ((k, dev) :: tail) =
          DeviceManager.refreshVisit fetch fuel
            (done ++ [(k, { dev with name := some info.name, model := some info.model })])
            tail) ∧
      ((dev.aliasName = dev.ip ∧ info.name ≠ "") →
        mapHas (done ++ (k, { dev with name := some info.name, model := some info.model }) :: tail)
            (jsToLower info.name) = true →
        DeviceManager.refreshVisit fetch (fuel + 1) done ((k, dev) :: tail) =
          DeviceManager.refreshVisit fetch fuel
            (done ++ [(k, { dev with name := some info.name, model := some info.model })])
            tail) ∧
      ((dev.aliasName = dev.ip ∧ info.name ≠ "") →
        mapHas (done ++ (k, { dev with name := some info.name, model := some info.model }) :: tail)
            (jsToLower info.name) = false →
        DeviceManager.refreshVisit fetch (fuel + 1) done ((k, dev) :: tail) =
          DeviceManager.refreshVisit fetch fuel
            (mapDelete done (jsToLower dev.ip) ++
              (if k = jsToLower dev.ip then []
                else [(k, { dev with name := some info.name, model := some info.model })]))
            (mapDelete tail (jsToLower dev.ip) ++
              [(jsToLower info.name,
                { dev with aliasName := info.name, name := some info.name, model := some info.model })]))) ∧
    (RegInv dm.devices → ∀ e ∈ dm.devices, e.2.aliasName ≠ e.2.ip →
      ∃ d', (e.1, d') ∈ (DeviceManager.refreshNames dm fetch).devices ∧
        d'.aliasName = e.2.aliasName) := by
  have hmem := fun hinv =>
    refreshVisit_mem fetch (2 * dm.devices.length + 1) [] dm.devices
      (by simpa using hinv)
      (le_trans (refreshMeasure_le dm.devices) (by omega))
  refine ⟨?_, ?_, ?_, ?_⟩
  · intro hinv
    exact ⟨fun e he hef => (hmem hinv).2.1 e he hef,
      fun e he info hef hg => (hmem hinv).2.2 e he info hef hg⟩
  · intro done tail k dev fuel hfetch
    rw [DeviceManager.refreshVisit]
    simp only [hfetch]
  · intro done tail k dev fuel info hfetch
    refine ⟨?_, ?_, ?_⟩
    · intro hguard
      rw [DeviceManager.refreshVisit]
      simp only [hfetch]
      rw [if_neg hguard]
    · intro hguard hhas
      rw [DeviceManager.refreshVisit]
      simp only [hfetch]
      rw [if_pos hguard, if_pos hhas]
    · intro hguard hhas
      rw [DeviceManager.refreshVisit]
      simp only [hfetch]
      rw [if_pos hguard, if_neg (by simp [hhas])]
  · intro hinv e he hne
    cases hfetch : fetch e.2.ip with
    | none => exact ⟨e.2, (hmem hinv).2.1 e he hfetch, rfl⟩
    | some info =>
        refine ⟨{ e.2 with name := some info.name, model := some info.model },
          (hmem hinv).2.2 e he info hfetch ?_, rfl⟩
        intro hcon
        exact hne hcon.1

/-- C7 witness: a one-device registry whose device is unreachable is left
unchanged. -/
theorem refreshNames_alias_upgrade_witness :
    ("a", (⟨"a", "10.0.0.1", "t", 0, none, none⟩ : RegisteredDevice)) ∈
      (DeviceManager.refreshNames
        ⟨[("a", ⟨"a", "10.0.0.1", "t", 0, none, none⟩)], 1⟩
        (fun _ => none)).devices :=
  ((refreshNames_alias_upgrade
      ⟨[("a", ⟨"a", "10.0.0.1", "t", 0, none, none⟩)], 1⟩ (fun _ => none)).1
    (by constructor
        · intro e he
          rw [List.mem_singleton] at he
          subst he
          decide
        · decide)).1
    ("a", ⟨"a", "10.0.0.1", "t", 0, none, none⟩) (List.mem_singleton.mpr rfl) rfl

/-- C4 counterexample: the round trip moves the green channel of
`(0,108,254)` by 3, exceeding the claimed ±1 tolerance. -/
theorem roundtrip_tolerance_counterexample :
    NanoleafClient.hsbToRgb (NanoleafClient.rgbToHsb ⟨0, 108, 254⟩) = ⟨0, 111, 255⟩ ∧
    1 < |(NanoleafClient.hsbToRgb (NanoleafClient.rgbToHsb ⟨0, 108, 254⟩)).g - 108| := by
  constructor
  · norm_num [NanoleafClient.rgbToHsb, NanoleafClient.hsbToRgb, jsRound, jsFmod,
      jsTrunc, max_def, min_def, Int.tmod]
  · norm_num [NanoleafClient.rgbToHsb, NanoleafClient.hsbToRgb, jsRound, jsFmod,
      jsTrunc, max_def, min_def, Int.tmod]

/-- C5 counterexample: `rgbToHsb (255,0,1)` rounds its hue to exactly 360,
so the output hue is not in `[0,360)`. -/
theorem rgbToHsb_hue_counterexample :
    (NanoleafClient.rgbToHsb ⟨255, 0, 1⟩).hue = 360 ∧
    ¬ (NanoleafClient.rgbToHsb ⟨255, 0, 1⟩).hue < 360 := by
  constructor
  · norm_num [NanoleafClient.rgbToHsb, jsRound, jsFmod, jsTrunc, max_def, min_def]
  · norm_num [NanoleafClient.rgbToHsb, jsRound, jsFmod, jsTrunc, max_def, min_def]

section RoundTripCore

/-- Integers within `3.49` of an integer round to within `3` of it. -/
lemma jsRound_close (z : ℤ) (q : ℚ) (h1 : (z : ℚ) - 349/100 ≤ q)
    (h2 : q ≤ (z : ℚ) + 349/100) : |jsRound q - z| ≤ 3 := by
  have hb := jsRound_bracket q
  rw [abs_le]
  constructor
  · by_contra hc
    push_neg at hc
    have h4 : jsRound q ≤ z - 4 := by omega
    have : (jsRound q : ℚ) ≤ (z : ℚ) - 4 := by exact_mod_cast h4
    linarith
  · by_contra hc
    push_neg at hc
    have h4 : z + 4 ≤ jsRound q := by omega
    have : (z : ℚ) + 4 ≤ (jsRound q : ℚ) := by exact_mod_cast h4
    linarith

/-- Round-trip bound for a channel whose computed value is the rounded
brightness scaled back to `[0,255]`. -/
lemma roundtrip_chanV (M d w B : ℤ) (val : ℚ)
    (hd255 : d ≤ 255)
    (hw0 : 0 ≤ (w : ℚ)) (hw : (w : ℚ) ≤ (d : ℚ) / 120)
    (hB1 : (M : ℚ) * 100 / 255 - 1/2 < B) (hB2 : (B : ℚ) ≤ (M : ℚ) * 100 / 255 + 1/2)
    (hval : val = (B : ℚ) / 100 * 255) :
    |jsRound val - (M - w)| ≤ 3 := by
  apply jsRound_close
  · push_cast
    rw [hval]
    have h1 : (d : ℚ) ≤ 255 := by exact_mod_cast hd255
    linarith
  · push_cast
    rw [hval]
    have h1 : (d : ℚ) ≤ 255 := by exact_mod_cast hd255
    linarith

/-- Round-trip bound for a channel whose computed value is
`v·(1−s)`, landing near the minimum channel. -/
lemma roundtrip_chanP (M d w S B : ℤ) (val : ℚ)
    (hM : 0 < M) (hM255 : M ≤ 255) (hdM : d ≤ M) (hd0 : 0 ≤ d)
    (hw0 : 0 ≤ (w : ℚ)) (hw : (w : ℚ) ≤ (d : ℚ) / 120)
    (hS1 : (d : ℚ) * 100 / M - 1/2 < S) (hS2 : (S : ℚ) ≤ (d : ℚ) * 100 / M + 1/2)
    (hS0 : 0 ≤ S) (hS100 : S ≤ 100)
    (hB1 : (M : ℚ) * 100 / 255 - 1/2 < B) (hB2 : (B : ℚ) ≤ (M : ℚ) * 100 / 255 + 1/2)
    (hval : val = (B : ℚ) / 100 * (1 - (S : ℚ) / 100) * 255) :
    |jsRound val - (M - d + w)| ≤ 3 := by
  have hmq : (0 : ℚ) < (M : ℚ) := by exact_mod_cast hM
  have hm255 : (M : ℚ) ≤ 255 := by exact_mod_cast hM255
  have hdmq : (d : ℚ) ≤ (M : ℚ) := by exact_mod_cast hdM
  have hd0q : (0 : ℚ) ≤ (d : ℚ) := by exact_mod_cast hd0
  have hs0 : (0 : ℚ) ≤ (S : ℚ) := by exact_mod_cast hS0
  have hs100 : (S : ℚ) ≤ 100 := by exact_mod_cast hS100
  have hSm1 : (d : ℚ) * 100 - (M : ℚ) / 2 < (S : ℚ) * M := by
    have h : (d : ℚ) * 100 / M < (S : ℚ) + 1/2 := by linarith
    rw [div_lt_iff hmq] at h
    linarith
  have hSm2 : (S : ℚ) * M ≤ (d : ℚ) * 100 + (M : ℚ) / 2 := by
    have h : (S : ℚ) - 1/2 ≤ (d : ℚ) * 100 / M := by linarith
    rw [le_div_iff hmq] at h
    linarith
  apply jsRound_close
  · push_cast
    rw [hval]
    nlinarith [hSm1, hSm2, mul_nonneg (sub_nonneg.mpr hm255) hd0q,
      mul_nonneg (sub_nonneg.mpr hdmq) hs0,
      mul_nonneg (sub_nonneg.mpr hm255) hs0,
      mul_nonneg (sub_nonneg.mpr hs100) (sub_nonneg.mpr hdmq),
      mul_nonneg hs0 hd0q, mul_nonneg hs0 hmq.le]
  · push_cast
    rw [hval]
    nlinarith [hSm1, hSm2, mul_nonneg (sub_nonneg.mpr hm255) hd0q,
      mul_nonneg (sub_nonneg.mpr hdmq) hs0,
      mul_nonneg (sub_nonneg.mpr hm255) hs0,
      mul_nonneg (sub_nonneg.mpr hs100) (sub_nonneg.mpr hdmq),
      mul_nonneg hs0 hd0q, mul_nonneg hs0 hmq.le]

/-- Exact error decomposition for the mid channel `v·(1−f·s)`: the computed
rational value stays within `3.49` of the original channel value. -/
lemma roundtrip_chanQcore (b s hh ii mm dd xx : ℚ)
    (hm : 0 < mm) (hm255 : mm ≤ 255) (hd : 0 < dd) (hdm : dd ≤ mm)
    (hS1 : dd * 100 / mm - 1/2 < s) (hS2 : s ≤ dd * 100 / mm + 1/2)
    (hs0 : 0 ≤ s) (hs100 : s ≤ 100)
    (hB1 : mm * 100 / 255 - 1/2 < b) (hB2 : b ≤ mm * 100 / 255 + 1/2)
    (hH1 : 60 * ii + 60 * xx / dd - 1/2 ≤ hh) (hH2 : hh ≤ 60 * ii + 60 * xx / dd + 1/2)
    (hHi1 : 60 * ii ≤ hh) (hHi2 : hh ≤ 60 * ii + 60) :
    |b / 100 * (1 - (hh - 60 * ii) / 60 * (s / 100)) * 255 - (mm - xx)| ≤ 349/100 := by
  have hφ0 : 0 ≤ (hh - 60 * ii) / 60 := by
    apply div_nonneg (by linarith) (by norm_num)
  have hφ1 : (hh - 60 * ii) / 60 ≤ 1 := by
    rw [div_le_one (by norm_num : (0:ℚ) < 60)]
    linarith
  have hσ0 : (0:ℚ) ≤ s / 100 := by linarith
  have hσ1 : s / 100 ≤ 1 := by linarith
  have hSm1 : dd * 100 - mm / 2 < s * mm := by
    have h : dd * 100 / mm < s + 1/2 := by linarith
    rw [div_lt_iff hm] at h
    linarith
  have hSm2 : s * mm ≤ dd * 100 + mm / 2 := by
    have h : s - 1/2 ≤ dd * 100 / mm := by linarith
    rw [le_div_iff hm] at h
    linarith
  have heq1 : (60 * ii + 60 * xx / dd - 1/2) * dd = 60 * ii * dd + 60 * xx - dd / 2 := by
    field_simp
    ring
  have heq2 : (60 * ii + 60 * xx / dd + 1/2) * dd = 60 * ii * dd + 60 * xx + dd / 2 := by
    field_simp
    ring
  have hHd1 : 60 * ii * dd + 60 * xx - dd / 2 ≤ hh * dd := by
    have h := mul_le_mul_of_nonneg_right hH1 hd.le
    rw [heq1] at h
    exact h
  have hHd2 : hh * dd ≤ 60 * ii * dd + 60 * xx + dd / 2 := by
    have h := mul_le_mul_of_nonneg_right hH2 hd.le
    rw [heq2] at h
    exact h
  have hexp : (hh - 60 * ii) / 60 * dd = hh * dd / 60 - ii * dd := by ring
  have e1a : (hh - 60 * ii) / 60 * dd - xx ≤ dd / 120 := by
    rw [hexp]
    linarith
  have e1b : -(dd / 120) ≤ (hh - 60 * ii) / 60 * dd - xx := by
    rw [hexp]
    linarith
  have e2a : s * mm / 100 - dd ≤ mm / 200 := by linarith
  have e2b : -(mm / 200) ≤ s * mm / 100 - dd := by linarith
  have e3a : 51 * b / 20 - mm ≤ 51 / 40 := by linarith
  have e3b : -(51 / 40) ≤ 51 * b / 20 - mm := by linarith
  have hφσ : 0 ≤ 1 - (hh - 60 * ii) / 60 * (s / 100) := by
    have h := mul_le_of_le_one_right hφ0 hσ1
    linarith
  have hid : b / 100 * (1 - (hh - 60 * ii) / 60 * (s / 100)) * 255 - (mm - xx)
      = -((hh - 60 * ii) / 60 * dd - xx) - (hh - 60 * ii) / 60 * (s * mm / 100 - dd)
        + (51 * b / 20 - mm) * (1 - (hh - 60 * ii) / 60 * (s / 100)) := by
    ring
  have t2a := mul_le_mul_of_nonneg_left e2b hφ0
  have t2b := mul_le_mul_of_nonneg_left e2a hφ0
  have t3a := mul_le_mul_of_nonneg_right e3a hφσ
  have t3b := mul_le_mul_of_nonneg_right e3b hφσ
  have hF : dd / 120 + (hh - 60 * ii) / 60 * (mm / 200)
      + (51 / 40) * (1 - (hh - 60 * ii) / 60 * (s / 100)) ≤ 349 / 100 := by
    rw [← mul_le_mul_left hm]
    have k1 := mul_le_mul_of_nonneg_left (le_of_lt hSm1) hφ0
    have hB' : (1 - (hh - 60 * ii) / 60) * (mm - dd) ≥ 0 :=
      mul_nonneg (by linarith) (by linarith)
    have hD : (1 - (hh - 60 * ii) / 60) * mm ≥ 0 :=
      mul_nonneg (by linarith) hm.le
    have hE : (255 - mm) * dd ≥ 0 := mul_nonneg (by linarith) hd.le
    have hG : (hh - 60 * ii) / 60 * ((255 - mm) * mm) ≥ 0 :=
      mul_nonneg hφ0 (mul_nonneg (by linarith) hm.le)
    linarith [k1, hB', hD, hE, hG, hdm, hm.le]
  rw [abs_le]
  constructor
  · rw [hid]
    linarith
  · rw [hid]
    linarith

/-- Integer-level wrapper of the mid-channel bound: the rounded output is
within `3` of the original channel. -/
lemma roundtrip_chanQ (M d x S B H i : ℤ) (val : ℚ)
    (hM : 0 < M) (hM255 : M ≤ 255) (hd : 0 < d) (hdM : d ≤ M)
    (hS1 : (d : ℚ) * 100 / (M : ℚ) - 1/2 < (S : ℚ))
    (hS2 : (S : ℚ) ≤ (d : ℚ) * 100 / (M : ℚ) + 1/2)
    (hS0 : 0 ≤ S) (hS100 : S ≤ 100)
    (hB1 : (M : ℚ) * 100 / 255 - 1/2 < (B : ℚ))
    (hB2 : (B : ℚ) ≤ (M : ℚ) * 100 / 255 + 1/2)
    (hH1 : 60 * (i : ℚ) + 60 * (x : ℚ) / (d : ℚ) - 1/2 ≤ (H : ℚ))
    (hH2 : (H : ℚ) ≤ 60 * (i : ℚ) + 60 * (x : ℚ) / (d : ℚ) + 1/2)
    (hHi1 : 60 * i ≤ H) (hHi2 : H ≤ 60 * i + 60)
    (hval : val = (B : ℚ) / 100 * (1 - ((H : ℚ) - 60 * (i : ℚ)) / 60 * ((S : ℚ) / 100)) * 255) :
    |jsRound val - (M - x)| ≤ 3 := by
  have hcore := roundtrip_chanQcore (B : ℚ) (S : ℚ) (H : ℚ) (i : ℚ) (M : ℚ) (d : ℚ) (x : ℚ)
    (by exact_mod_cast hM) (by exact_mod_cast hM255) (by exact_mod_cast hd)
    (by exact_mod_cast hdM) hS1 hS2 (by exact_mod_cast hS0) (by exact_mod_cast hS100)
    hB1 hB2 hH1 hH2 (by exact_mod_cast hHi1) (by exact_mod_cast hHi2)
  rw [hval]
  have h1 := (abs_le.mp hcore).1
  have h2 := (abs_le.mp hcore).2
  apply jsRound_close
  · push_cast
    linarith
  · push_cast
    linarith

/-- The sector index computed by `hsbToRgb` on an integral hue. -/
lemma floor_sector (H k : ℤ) (h1 : 60 * k ≤ H) (h2 : H < 60 * k + 60) :
    ⌊(H : ℚ) / 360 * 6⌋ = k := by
  have he : (H : ℚ) / 360 * 6 = (H : ℚ) / 60 := by ring
  rw [he, Int.floor_eq_iff]
  constructor
  · rw [le_div_iff (by norm_num : (0:ℚ) < 60)]
    have h1' : 60 * (k : ℚ) ≤ (H : ℚ) := by exact_mod_cast h1
    linarith
  · rw [div_lt_iff (by norm_num : (0:ℚ) < 60)]
    have h2' : (H : ℚ) < 60 * (k : ℚ) + 60 := by exact_mod_cast h2
    linarith

/-- Casting commutes with the three-way maximum of scaled channels. -/
lemma max3_div255 (a b c : ℤ) :
    max ((a : ℚ) / 255) (max ((b : ℚ) / 255) ((c : ℚ) / 255))
      = ((max a (max b c) : ℤ) : ℚ) / 255 := by
  have h2 : ∀ x y : ℤ, ((max x y : ℤ) : ℚ) = max (x : ℚ) (y : ℚ) := fun x y => by
    rcases le_total x y with h | h
    · rw [max_eq_right h, max_eq_right (by exact_mod_cast h : (x:ℚ) ≤ y)]
    · rw [max_eq_left h, max_eq_left (by exact_mod_cast h : (y:ℚ) ≤ x)]
  rw [h2, h2, max_div_div_right (by norm_num : (0:ℚ) ≤ 255),
    max_div_div_right (by norm_num : (0:ℚ) ≤ 255)]

/-- Casting commutes with the three-way minimum of scaled channels. -/
lemma min3_div255 (a b c : ℤ) :
    min ((a : ℚ) / 255) (min ((b : ℚ) / 255) ((c : ℚ) / 255))
      = ((min a (min b c) : ℤ) : ℚ) / 255 := by
  have h2 : ∀ x y : ℤ, ((min x y : ℤ) : ℚ) = min (x : ℚ) (y : ℚ) := fun x y => by
    rcases le_total x y with h | h
    · rw [min_eq_left h, min_eq_left (by exact_mod_cast h : (x:ℚ) ≤ y)]
    · rw [min_eq_right h, min_eq_right (by exact_mod_cast h : (y:ℚ) ≤ x)]
  rw [h2, h2, min_div_div_right (by norm_num : (0:ℚ) ≤ 255),
    min_div_div_right (by norm_num : (0:ℚ) ≤ 255)]

end RoundTripCore

section RgbToHsbEval

/-- Cancelling the common `255` scaling in a quotient of differences. -/
lemma div255_cancel (a b : ℚ) : a / 255 / (b / 255) = a / b := by
  rcases eq_or_ne b 0 with rfl | hb
  · simp
  · field_simp

/-- On an achromatic input `rgbToHsb` yields hue 0, saturation 0 and the
rounded brightness. -/
lemma rgbToHsb_eval_achrom (R : ℤ) :
    NanoleafClient.rgbToHsb ⟨R, R, R⟩ = ⟨0, 0, (jsRound ((R : ℚ) * 100 / 255) : ℚ)⟩ := by
  simp only [NanoleafClient.rgbToHsb, max_self, min_self, sub_self, ne_eq,
    not_true_eq_false, if_false, ite_false]
  have h0 : (jsRound 0 : ℚ) = 0 := by norm_num [jsRound]
  have hsat : (if (R : ℚ) / 255 = 0 then (0:ℚ) else 0 / ((R:ℚ)/255) * 100) = 0 := by
    split_ifs with h
    · rfl
    · rw [zero_div, zero_mul]
  rw [hsat, h0]
  have hbri : (R : ℚ) / 255 * 100 = (R : ℚ) * 100 / 255 := by ring
  rw [hbri]

/-- `rgbToHsb` in the `max = r`, `g ≥ b` branch. -/
lemma rgbToHsb_eval_A1 (R G Bl M m : ℤ)
    (hMdef : M = max R (max G Bl)) (hmdef : m = min R (min G Bl))
    (hm0 : 0 ≤ m) (hmM : m < M) (hMR : M = R) (hGB : Bl ≤ G) :
    NanoleafClient.rgbToHsb ⟨R, G, Bl⟩ =
      ⟨(jsRound (60 * ((G : ℚ) - (Bl : ℚ)) / ((M : ℚ) - (m : ℚ))) : ℚ),
        (jsRound (((M : ℚ) - (m : ℚ)) * 100 / (M : ℚ)) : ℚ),
        (jsRound ((M : ℚ) * 100 / 255) : ℚ)⟩ := by
  have hmq : (m : ℚ) < (M : ℚ) := by exact_mod_cast hmM
  have hm0q : (0 : ℚ) ≤ (m : ℚ) := by exact_mod_cast hm0
  have hMne : (M : ℚ) - (m : ℚ) ≠ 0 := sub_ne_zero.mpr (ne_of_gt hmq)
  have hGq : (G : ℚ) ≤ (M : ℚ) := by
    have : G ≤ M := hMdef ▸ le_trans (le_max_left _ _) (le_max_right _ _)
    exact_mod_cast this
  have hBlq : (m : ℚ) ≤ (Bl : ℚ) := by
    have : m ≤ Bl := hmdef ▸ le_trans (min_le_right _ _) (min_le_right _ _)
    exact_mod_cast this
  have hGBq : (Bl : ℚ) ≤ (G : ℚ) := by exact_mod_cast hGB
  simp only [NanoleafClient.rgbToHsb]
  rw [max3_div255, min3_div255, ← hMdef, ← hmdef]
  have hΔne : (M : ℚ) / 255 - (m : ℚ) / 255 ≠ 0 := by
    intro h
    apply hMne
    field_simp at h
    linarith
  rw [if_pos hΔne, if_pos (by rw [hMR] : (M : ℚ) / 255 = (R : ℚ) / 255)]
  have harg : ((G : ℚ) / 255 - (Bl : ℚ) / 255) / ((M : ℚ) / 255 - (m : ℚ) / 255)
      = ((G : ℚ) - (Bl : ℚ)) / ((M : ℚ) - (m : ℚ)) := by
    rw [div_sub_div_same, div_sub_div_same, div255_cancel]
  rw [harg]
  have ha0 : (0 : ℚ) ≤ ((G : ℚ) - (Bl : ℚ)) / ((M : ℚ) - (m : ℚ)) :=
    div_nonneg (by linarith) (by linarith)
  have ha1 : ((G : ℚ) - (Bl : ℚ)) / ((M : ℚ) - (m : ℚ)) ≤ 1 := by
    rw [div_le_one (by linarith)]
    linarith
  rw [jsFmod_self_of_lt (by linarith) (by linarith)]
  rw [if_neg (by push_neg; nlinarith : ¬ ((G : ℚ) - (Bl : ℚ)) / ((M : ℚ) - (m : ℚ)) * 60 < 0)]
  have hMxne : ¬ (M : ℚ) / 255 = 0 :=
    (ne_of_gt (div_pos (by linarith) (by norm_num)))
  rw [if_neg hMxne]
  simp only [HSBColor.mk.injEq]
  refine ⟨?_, ?_, ?_⟩
  · exact congrArg (fun q => ((jsRound q : ℤ) : ℚ)) (by ring)
  · refine congrArg (fun q => ((jsRound q : ℤ) : ℚ)) ?_
    rw [div_sub_div_same, div255_cancel]
    ring
  · exact congrArg (fun q => ((jsRound q : ℤ) : ℚ)) (by ring)

/-- `rgbToHsb` in the `max = r`, `g < b` branch (negative raw hue, +360). -/
lemma rgbToHsb_eval_A2 (R G Bl M m : ℤ)
    (hMdef : M = max R (max G Bl)) (hmdef : m = min R (min G Bl))
    (hm0 : 0 ≤ m) (hmM : m < M) (hMR : M = R) (hGB : G < Bl) :
    NanoleafClient.rgbToHsb ⟨R, G, Bl⟩ =
      ⟨(jsRound (60 * ((G : ℚ) - (Bl : ℚ)) / ((M : ℚ) - (m : ℚ)) + 360) : ℚ),
        (jsRound (((M : ℚ) - (m : ℚ)) * 100 / (M : ℚ)) : ℚ),
        (jsRound ((M : ℚ) * 100 / 255) : ℚ)⟩ := by
  have hmq : (m : ℚ) < (M : ℚ) := by exact_mod_cast hmM
  have hm0q : (0 : ℚ) ≤ (m : ℚ) := by exact_mod_cast hm0
  have hMne : (M : ℚ) - (m : ℚ) ≠ 0 := sub_ne_zero.mpr (ne_of_gt hmq)
  have hBlq : (Bl : ℚ) ≤ (M : ℚ) := by
    have : Bl ≤ M := hMdef ▸ le_trans (le_max_right _ _) (le_max_right _ _)
    exact_mod_cast this
  have hGq : (m : ℚ) ≤ (G : ℚ) := by
    have : m ≤ G := hmdef ▸ le_trans (min_le_right _ _) (min_le_left _ _)
    exact_mod_cast this
  have hGBq : (G : ℚ) < (Bl : ℚ) := by exact_mod_cast hGB
  simp only [NanoleafClient.rgbToHsb]
  rw [max3_div255, min3_div255, ← hMdef, ← hmdef]
  have hΔne : (M : ℚ) / 255 - (m : ℚ) / 255 ≠ 0 := by
    intro h
    apply hMne
    field_simp at h
    linarith
  rw [if_pos hΔne, if_pos (by rw [hMR] : (M : ℚ) / 255 = (R : ℚ) / 255)]
  have harg : ((G : ℚ) / 255 - (Bl : ℚ) / 255) / ((M : ℚ) / 255 - (m : ℚ) / 255)
      = ((G : ℚ) - (Bl : ℚ)) / ((M : ℚ) - (m : ℚ)) := by
    rw [div_sub_div_same, div_sub_div_same, div255_cancel]
  rw [harg]
  have ha0 : ((G : ℚ) - (Bl : ℚ)) / ((M : ℚ) - (m : ℚ)) < 0 :=
    div_neg_of_neg_of_pos (by linarith) (by linarith)
  have ha1 : -1 ≤ ((G : ℚ) - (Bl : ℚ)) / ((M : ℚ) - (m : ℚ)) := by
    rw [neg_le, ← neg_div]
    rw [div_le_one (by linarith)]
    linarith
  rw [jsFmod_self_of_lt (by linarith) (by linarith)]
  rw [if_pos (by nlinarith : ((G : ℚ) - (Bl : ℚ)) / ((M : ℚ) - (m : ℚ)) * 60 < 0)]
  have hMxne : ¬ (M : ℚ) / 255 = 0 :=
    (ne_of_gt (div_pos (by linarith) (by norm_num)))
  rw [if_neg hMxne]
  simp only [HSBColor.mk.injEq]
  refine ⟨?_, ?_, ?_⟩
  · exact congrArg (fun q => ((jsRound q : ℤ) : ℚ)) (by ring)
  · refine congrArg (fun q => ((jsRound q : ℤ) : ℚ)) ?_
    rw [div_sub_div_same, div255_cancel]
    ring
  · exact congrArg (fun q => ((jsRound q : ℤ) : ℚ)) (by ring)

/-- `rgbToHsb` in the `max = g` branch. -/
lemma rgbToHsb_eval_B (R G Bl M m : ℤ)
    (hMdef : M = max R (max G Bl)) (hmdef : m = min R (min G Bl))
    (hm0 : 0 ≤ m) (hmM : m < M) (hMR : M ≠ R) (hMG : M = G) :
    NanoleafClient.rgbToHsb ⟨R, G, Bl⟩ =
      ⟨(jsRound (60 * ((Bl : ℚ) - (R : ℚ)) / ((M : ℚ) - (m : ℚ)) + 120) : ℚ),
        (jsRound (((M : ℚ) - (m : ℚ)) * 100 / (M : ℚ)) : ℚ),
        (jsRound ((M : ℚ) * 100 / 255) : ℚ)⟩ := by
  have hmq : (m : ℚ) < (M : ℚ) := by exact_mod_cast hmM
  have hm0q : (0 : ℚ) ≤ (m : ℚ) := by exact_mod_cast hm0
  have hMne : (M : ℚ) - (m : ℚ) ≠ 0 := sub_ne_zero.mpr (ne_of_gt hmq)
  have hRM : (R : ℚ) ≤ (M : ℚ) := by
    have : R ≤ M := hMdef ▸ le_max_left _ _
    exact_mod_cast this
  have hmBl : (m : ℚ) ≤ (Bl : ℚ) := by
    have : m ≤ Bl := hmdef ▸ le_trans (min_le_right _ _) (min_le_right _ _)
    exact_mod_cast this
  simp only [NanoleafClient.rgbToHsb]
  rw [max3_div255, min3_div255, ← hMdef, ← hmdef]
  have hΔne : (M : ℚ) / 255 - (m : ℚ) / 255 ≠ 0 := by
    intro h
    apply hMne
    field_simp at h
    linarith
  have hMRq : ¬ (M : ℚ) / 255 = (R : ℚ) / 255 := by
    intro h
    apply hMR
    field_simp at h
    exact_mod_cast h
  rw [if_pos hΔne, if_neg hMRq, if_pos (by rw [hMG] : (M : ℚ) / 255 = (G : ℚ) / 255)]
  have harg : ((Bl : ℚ) / 255 - (R : ℚ) / 255) / ((M : ℚ) / 255 - (m : ℚ) / 255)
      = ((Bl : ℚ) - (R : ℚ)) / ((M : ℚ) - (m : ℚ)) := by
    rw [div_sub_div_same, div_sub_div_same, div255_cancel]
  rw [harg]
  have ha1 : -1 ≤ ((Bl : ℚ) - (R : ℚ)) / ((M : ℚ) - (m : ℚ)) := by
    rw [neg_le, ← neg_div]
    rw [div_le_one (by linarith)]
    linarith
  rw [if_neg (by push_neg; nlinarith :
    ¬ (((Bl : ℚ) - (R : ℚ)) / ((M : ℚ) - (m : ℚ)) + 2) * 60 < 0)]
  have hMxne : ¬ (M : ℚ) / 255 = 0 :=
    (ne_of_gt (div_pos (by linarith) (by norm_num)))
  rw [if_neg hMxne]
  simp only [HSBColor.mk.injEq]
  refine ⟨?_, ?_, ?_⟩
  · exact congrArg (fun q => ((jsRound q : ℤ) : ℚ)) (by ring)
  · refine congrArg (fun q => ((jsRound q : ℤ) : ℚ)) ?_
    rw [div_sub_div_same, div255_cancel]
    ring
  · exact congrArg (fun q => ((jsRound q : ℤ) : ℚ)) (by ring)

/-- `rgbToHsb` in the `max = b` branch. -/
lemma rgbToHsb_eval_C (R G Bl M m : ℤ)
    (hMdef : M = max R (max G Bl)) (hmdef : m = min R (min G Bl))
    (hm0 : 0 ≤ m) (hmM : m < M) (hMR : M ≠ R) (hMG : M ≠ G) :
    NanoleafClient.rgbToHsb ⟨R, G, Bl⟩ =
      ⟨(jsRound (60 * ((R : ℚ) - (G : ℚ)) / ((M : ℚ) - (m : ℚ)) + 240) : ℚ),
        (jsRound (((M : ℚ) - (m : ℚ)) * 100 / (M : ℚ)) : ℚ),
        (jsRound ((M : ℚ) * 100 / 255) : ℚ)⟩ := by
  have hmq : (m : ℚ) < (M : ℚ) := by exact_mod_cast hmM
  have hm0q : (0 : ℚ) ≤ (m : ℚ) := by exact_mod_cast hm0
  have hMne : (M : ℚ) - (m : ℚ) ≠ 0 := sub_ne_zero.mpr (ne_of_gt hmq)
  have hGM : (G : ℚ) ≤ (M : ℚ) := by
    have : G ≤ M := hMdef ▸ le_trans (le_max_left _ _) (le_max_right _ _)
    exact_mod_cast this
  have hmR : (m : ℚ) ≤ (R : ℚ) := by
    have : m ≤ R := hmdef ▸ min_le_left _ _
    exact_mod_cast this
  simp only [NanoleafClient.rgbToHsb]
  rw [max3_div255, min3_div255, ← hMdef, ← hmdef]
  have hΔne : (M : ℚ) / 255 - (m : ℚ) / 255 ≠ 0 := by
    intro h
    apply hMne
    field_simp at h
    linarith
  have hMRq : ¬ (M : ℚ) / 255 = (R : ℚ) / 255 := by
    intro h
    apply hMR
    field_simp at h
    exact_mod_cast h
  have hMGq : ¬ (M : ℚ) / 255 = (G : ℚ) / 255 := by
    intro h
    apply hMG
    field_simp at h
    exact_mod_cast h
  rw [if_pos hΔne, if_neg hMRq, if_neg hMGq]
  have harg : ((R : ℚ) / 255 - (G : ℚ) / 255) / ((M : ℚ) / 255 - (m : ℚ) / 255)
      = ((R : ℚ) - (G : ℚ)) / ((M : ℚ) - (m : ℚ)) := by
    rw [div_sub_div_same, div_sub_div_same, div255_cancel]
  rw [harg]
  have ha1 : -1 ≤ ((R : ℚ) - (G : ℚ)) / ((M : ℚ) - (m : ℚ)) := by
    rw [neg_le, ← neg_div]
    rw [div_le_one (by linarith)]
    linarith
  rw [if_neg (by push_neg; nlinarith :
    ¬ (((R : ℚ) - (G : ℚ)) / ((M : ℚ) - (m : ℚ)) + 4) * 60 < 0)]
  have hMxne : ¬ (M : ℚ) / 255 = 0 :=
    (ne_of_gt (div_pos (by linarith) (by norm_num)))
  rw [if_neg hMxne]
  simp only [HSBColor.mk.injEq]
  refine ⟨?_, ?_, ?_⟩
  · exact congrArg (fun q => ((jsRound q : ℤ) : ℚ)) (by ring)
  · refine congrArg (fun q => ((jsRound q : ℤ) : ℚ)) ?_
    rw [div_sub_div_same, div255_cancel]
    ring
  · exact congrArg (fun q => ((jsRound q : ℤ) : ℚ)) (by ring)

end RgbToHsbEval

section HsbToRgbEval

/-- Transport of a `±3` bound along an equality of targets. -/
lemma abs_close_congr (X t t' : ℤ) (h : |X - t| ≤ 3) (he : t' = t) : |X - t'| ≤ 3 :=
  he ▸ h

/-- `hsbToRgb` on an integral triple landing in a sector congruent to 0. -/
lemma hsbToRgb_sector0 (H S B k : ℤ) (h1 : 60 * k ≤ H) (h2 : H < 60 * k + 60)
    (ht : Int.tmod k 6 = 0) :
    NanoleafClient.hsbToRgb ⟨(H : ℚ), (S : ℚ), (B : ℚ)⟩ =
      ⟨jsRound ((B : ℚ) / 100 * 255),
        jsRound ((B : ℚ) / 100 * (1 - (1 - ((H : ℚ) / 360 * 6 - (k : ℚ))) * ((S : ℚ) / 100)) * 255),
        jsRound ((B : ℚ) / 100 * (1 - (S : ℚ) / 100) * 255)⟩ := by
  simp only [NanoleafClient.hsbToRgb]
  rw [floor_sector H k h1 h2, ht]
  rfl

/-- `hsbToRgb` on an integral triple landing in a sector congruent to 1. -/
lemma hsbToRgb_sector1 (H S B k : ℤ) (h1 : 60 * k ≤ H) (h2 : H < 60 * k + 60)
    (ht : Int.tmod k 6 = 1) :
    NanoleafClient.hsbToRgb ⟨(H : ℚ), (S : ℚ), (B : ℚ)⟩ =
      ⟨jsRound ((B : ℚ) / 100 * (1 - ((H : ℚ) / 360 * 6 - (k : ℚ)) * ((S : ℚ) / 100)) * 255),
        jsRound ((B : ℚ) / 100 * 255),
        jsRound ((B : ℚ) / 100 * (1 - (S : ℚ) / 100) * 255)⟩ := by
  simp only [NanoleafClient.hsbToRgb]
  rw [floor_sector H k h1 h2, ht]
  rfl

/-- `hsbToRgb` on an integral triple landing in a sector congruent to 2. -/
lemma hsbToRgb_sector2 (H S B k : ℤ) (h1 : 60 * k ≤ H) (h2 : H < 60 * k + 60)
    (ht : Int.tmod k 6 = 2) :
    NanoleafClient.hsbToRgb ⟨(H : ℚ), (S : ℚ), (B : ℚ)⟩ =
      ⟨jsRound ((B : ℚ) / 100 * (1 - (S : ℚ) / 100) * 255),
        jsRound ((B : ℚ) / 100 * 255),
        jsRound ((B : ℚ) / 100 * (1 - (1 - ((H : ℚ) / 360 * 6 - (k : ℚ))) * ((S : ℚ) / 100)) * 255)⟩ := by
  simp only [NanoleafClient.hsbToRgb]
  rw [floor_sector H k h1 h2, ht]
  rfl

/-- `hsbToRgb` on an integral triple landing in a sector congruent to 3. -/
lemma hsbToRgb_sector3 (H S B k : ℤ) (h1 : 60 * k ≤ H) (h2 : H < 60 * k + 60)
    (ht : Int.tmod k 6 = 3) :
    NanoleafClient.hsbToRgb ⟨(H : ℚ), (S : ℚ), (B : ℚ)⟩ =
      ⟨jsRound ((B : ℚ) / 100 * (1 - (S : ℚ) / 100) * 255),
        jsRound ((B : ℚ) / 100 * (1 - ((H : ℚ) / 360 * 6 - (k : ℚ)) * ((S : ℚ) / 100)) * 255),
        jsRound ((B : ℚ) / 100 * 255)⟩ := by
  simp only [NanoleafClient.hsbToRgb]
  rw [floor_sector H k h1 h2, ht]
  rfl

/-- `hsbToRgb` on an integral triple landing in a sector congruent to 4. -/
lemma hsbToRgb_sector4 (H S B k : ℤ) (h1 : 60 * k ≤ H) (h2 : H < 60 * k + 60)
    (ht : Int.tmod k 6 = 4) :
    NanoleafClient.hsbToRgb ⟨(H : ℚ), (S : ℚ), (B : ℚ)⟩ =
      ⟨jsRound ((B : ℚ) / 100 * (1 - (1 - ((H : ℚ) / 360 * 6 - (k : ℚ))) * ((S : ℚ) / 100)) * 255),
        jsRound ((B : ℚ) / 100 * (1 - (S : ℚ) / 100) * 255),
        jsRound ((B : ℚ) / 100 * 255)⟩ := by
  simp only [NanoleafClient.hsbToRgb]
  rw [floor_sector H k h1 h2, ht]
  rfl

/-- `hsbToRgb` on an integral triple landing in a sector congruent to 5. -/
lemma hsbToRgb_sector5 (H S B k : ℤ) (h1 : 60 * k ≤ H) (h2 : H < 60 * k + 60)
    (ht : Int.tmod k 6 = 5) :
    NanoleafClient.hsbToRgb ⟨(H : ℚ), (S : ℚ), (B : ℚ)⟩ =
      ⟨jsRound ((B : ℚ) / 100 * 255),
        jsRound ((B : ℚ) / 100 * (1 - (S : ℚ) / 100) * 255),
        jsRound ((B : ℚ) / 100 * (1 - ((H : ℚ) / 360 * 6 - (k : ℚ)) * ((S : ℚ) / 100)) * 255)⟩ := by
  simp only [NanoleafClient.hsbToRgb]
  rw [floor_sector H k h1 h2, ht]
  rfl

end HsbToRgbEval

section RoundTripBranches

/-- An integer exceeding `c - 1/2` is at least `c`. -/
lemma half_lt_int {X c : ℤ} (h : (c : ℚ) - 1/2 < (X : ℚ)) : c ≤ X := by
  by_contra hc
  push_neg at hc
  have h1 : X ≤ c - 1 := by omega
  have h2 : (X : ℚ) ≤ (c : ℚ) - 1 := by exact_mod_cast h1
  linarith

set_option maxHeartbeats 1000000 in
/-- Round trip through `rgbToHsb`/`hsbToRgb` in the `max = r` branch. -/
lemma roundtrip_branchA (R G Bl M m : ℤ)
    (hMdef : M = max R (max G Bl)) (hmdef : m = min R (min G Bl))
    (hR0 : 0 ≤ R) (hR255 : R ≤ 255) (hG0 : 0 ≤ G) (hG255 : G ≤ 255)
    (hBl0 : 0 ≤ Bl) (hBl255 : Bl ≤ 255)
    (hmM : m < M) (hMR : M = R) :
    |(NanoleafClient.hsbToRgb (NanoleafClient.rgbToHsb ⟨R, G, Bl⟩)).r - R| ≤ 3 ∧
    |(NanoleafClient.hsbToRgb (NanoleafClient.rgbToHsb ⟨R, G, Bl⟩)).g - G| ≤ 3 ∧
    |(NanoleafClient.hsbToRgb (NanoleafClient.rgbToHsb ⟨R, G, Bl⟩)).b - Bl| ≤ 3 := by
  have hm0 : 0 ≤ m := hmdef ▸ le_min hR0 (le_min hG0 hBl0)
  have hM255 : M ≤ 255 := hMdef ▸ max_le hR255 (max_le hG255 hBl255)
  have hM0 : (0:ℤ) < M := lt_of_le_of_lt hm0 hmM
  have hGM : G ≤ M := hMdef ▸ le_trans (le_max_left _ _) (le_max_right _ _)
  have hBlM : Bl ≤ M := hMdef ▸ le_trans (le_max_right _ _) (le_max_right _ _)
  have hmG : m ≤ G := hmdef ▸ le_trans (min_le_right _ _) (min_le_left _ _)
  have hmBl : m ≤ Bl := hmdef ▸ le_trans (min_le_right _ _) (min_le_right _ _)
  have hmq : (m:ℚ) < (M:ℚ) := by exact_mod_cast hmM
  have hm0q : (0:ℚ) ≤ (m:ℚ) := by exact_mod_cast hm0
  have hMq0 : (0:ℚ) < (M:ℚ) := by exact_mod_cast hM0
  have hGMq : (G:ℚ) ≤ (M:ℚ) := by exact_mod_cast hGM
  have hBlMq : (Bl:ℚ) ≤ (M:ℚ) := by exact_mod_cast hBlM
  have hmGq : (m:ℚ) ≤ (G:ℚ) := by exact_mod_cast hmG
  have hmBlq : (m:ℚ) ≤ (Bl:ℚ) := by exact_mod_cast hmBl
  have hne : ((M:ℚ) - m) ≠ 0 := ne_of_gt (by linarith)
  have hSexpr0 : (0:ℚ) ≤ ((M:ℚ) - m) * 100 / (M:ℚ) :=
    div_nonneg (by linarith) hMq0.le
  have hSexpr1 : ((M:ℚ) - m) * 100 / (M:ℚ) ≤ 100 := by
    rw [div_le_iff hMq0]
    nlinarith
  obtain ⟨S, hSdef⟩ : ∃ X : ℤ, jsRound (((M:ℚ) - m) * 100 / (M:ℚ)) = X := ⟨_, rfl⟩
  obtain ⟨B, hBdef⟩ : ∃ X : ℤ, jsRound ((M:ℚ) * 100 / 255) = X := ⟨_, rfl⟩
  have hSbr := jsRound_bracket (((M:ℚ) - m) * 100 / (M:ℚ))
  have hBbr := jsRound_bracket ((M:ℚ) * 100 / 255)
  have hS0 : 0 ≤ jsRound (((M:ℚ) - m) * 100 / (M:ℚ)) := jsRound_nonneg hSexpr0
  have hS100 : jsRound (((M:ℚ) - m) * 100 / (M:ℚ)) ≤ 100 :=
    jsRound_le_of_lt_half (by push_cast; linarith)
  rw [hSdef] at hSbr hS0 hS100
  rw [hBdef] at hBbr
  have hB1' : (M:ℚ) * 100 / 255 - 1/2 < (B:ℚ) := hBbr.2
  have hB2' : (B:ℚ) ≤ (M:ℚ) * 100 / 255 + 1/2 := hBbr.1
  have hS1' : ((M - m : ℤ) : ℚ) * 100 / (M:ℚ) - 1/2 < (S:ℚ) := by
    push_cast
    linarith [hSbr.2]
  have hS2' : (S:ℚ) ≤ ((M - m : ℤ) : ℚ) * 100 / (M:ℚ) + 1/2 := by
    push_cast
    linarith [hSbr.1]
  by_cases hGB : Bl ≤ G
  · -- g ≥ b: raw hue in [0, 60]
    have hBlm : m = Bl :=
      le_antisymm hmBl (hmdef ▸ le_min (hMR ▸ hBlM) (le_min hGB le_rfl))
    have hGBq : (Bl:ℚ) ≤ (G:ℚ) := by exact_mod_cast hGB
    rw [rgbToHsb_eval_A1 R G Bl M m hMdef hmdef hm0 hmM hMR hGB, hSdef, hBdef]
    have hha0 : (0:ℚ) ≤ 60 * ((G:ℚ) - Bl) / ((M:ℚ) - m) :=
      div_nonneg (by linarith) (by linarith)
    have hha1 : 60 * ((G:ℚ) - Bl) / ((M:ℚ) - m) ≤ 60 := by
      rw [div_le_iff (by linarith)]
      nlinarith
    obtain ⟨H, hHdef⟩ : ∃ X : ℤ, jsRound (60 * ((G:ℚ) - Bl) / ((M:ℚ) - m)) = X := ⟨_, rfl⟩
    have hHbr := jsRound_bracket (60 * ((G:ℚ) - Bl) / ((M:ℚ) - m))
    have hH0 : 0 ≤ jsRound (60 * ((G:ℚ) - Bl) / ((M:ℚ) - m)) := jsRound_nonneg hha0
    have hH60 : jsRound (60 * ((G:ℚ) - Bl) / ((M:ℚ) - m)) ≤ 60 :=
      jsRound_le_of_lt_half (by push_cast; linarith)
    rw [hHdef] at hHbr hH0 hH60 ⊢
    by_cases hHtop : H = 60
    · subst hHtop
      rw [hsbToRgb_sector1 60 S B 1 (by norm_num) (by norm_num) (by decide)]
      have hslack : 60 * ((G:ℚ) - Bl) / ((M:ℚ) - m) ≥ 60 - 1/2 := by
        have h1 : ((60:ℤ):ℚ) ≤ 60 * ((G:ℚ) - Bl) / ((M:ℚ) - m) + 1/2 := hHbr.1
        push_cast at h1
        linarith
      have hmul : (60 - 1/2) * ((M:ℚ) - m) ≤ 60 * ((G:ℚ) - Bl) := by
        rw [← le_div_iff (by linarith : (0:ℚ) < (M:ℚ) - m)]
        exact hslack
      refine ⟨?_, ?_, ?_⟩
      · refine abs_close_congr _ (M - 0) _
          (roundtrip_chanV M (M - m) 0 B _ (by omega) (by norm_num)
            (by push_cast; linarith) hB1' hB2' (by push_cast; ring)) (by omega)
      · refine abs_close_congr _ (M - (M - m - G + Bl)) _
          (roundtrip_chanV M (M - m) (M - m - G + Bl) B _ (by omega)
            (by push_cast; linarith) (by push_cast; linarith) hB1' hB2' rfl)
          (by omega)
      · refine abs_close_congr _ (M - (M - m) + 0) _
          (roundtrip_chanP M (M - m) 0 S B _ hM0 hM255 (by omega) (by omega)
            (by norm_num) (by push_cast; linarith) hS1' hS2' hS0 hS100 hB1' hB2' rfl)
          (by omega)
    · have hH59 : H < 60 := lt_of_le_of_ne hH60 hHtop
      rw [hsbToRgb_sector0 H S B 0 (by omega) (by omega) (by decide)]
      have hfe : 60 * ((M:ℚ) - m - G + Bl) / ((M:ℚ) - m)
          = 60 - 60 * ((G:ℚ) - Bl) / ((M:ℚ) - m) := by
        rw [div_eq_iff hne, sub_mul, div_mul_cancel₀ _ hne]
        ring
      refine ⟨?_, ?_, ?_⟩
      · refine abs_close_congr _ (M - 0) _
          (roundtrip_chanV M (M - m) 0 B _ (by omega) (by norm_num)
            (by push_cast; linarith) hB1' hB2' (by push_cast; ring)) (by omega)
      · refine abs_close_congr _ (M - (M - m - G + Bl)) _
          (roundtrip_chanQ M (M - m) (M - m - G + Bl) S B (60 - H) 0 _
            hM0 hM255 (by omega) (by omega) hS1' hS2' hS0 hS100 hB1' hB2'
            (by push_cast; linarith [hHbr.1, hfe])
            (by push_cast; linarith [hHbr.2, hfe])
            (by omega) (by omega) (by push_cast; ring))
          (by omega)
      · refine abs_close_congr _ (M - (M - m) + 0) _
          (roundtrip_chanP M (M - m) 0 S B _ hM0 hM255 (by omega) (by omega)
            (by norm_num) (by push_cast; linarith) hS1' hS2' hS0 hS100 hB1' hB2' rfl)
          (by omega)
  · -- g < b: raw hue in [300, 360)
    push_neg at hGB
    have hGm : m = G :=
      le_antisymm hmG (hmdef ▸ le_min (hMR ▸ hGM) (le_min le_rfl hGB.le))
    have hGBq : (G:ℚ) < (Bl:ℚ) := by exact_mod_cast hGB
    rw [rgbToHsb_eval_A2 R G Bl M m hMdef hmdef hm0 hmM hMR hGB, hSdef, hBdef]
    have hdiv1 : -1 ≤ ((G:ℚ) - Bl) / ((M:ℚ) - m) := by
      rw [neg_le, ← neg_div, div_le_one (by linarith)]
      linarith
    have hdiv0 : ((G:ℚ) - Bl) / ((M:ℚ) - m) < 0 := by
      apply div_neg_of_neg_of_pos
      · linarith
      · linarith
    have heq60 : 60 * ((G:ℚ) - Bl) / ((M:ℚ) - m) = 60 * (((G:ℚ) - Bl) / ((M:ℚ) - m)) := by
      ring
    have hha0 : (300:ℚ) ≤ 60 * ((G:ℚ) - Bl) / ((M:ℚ) - m) + 360 := by
      rw [heq60]
      linarith
    have hha1 : 60 * ((G:ℚ) - Bl) / ((M:ℚ) - m) + 360 < 360 := by
      rw [heq60]
      linarith
    obtain ⟨H, hHdef⟩ : ∃ X : ℤ,
        jsRound (60 * ((G:ℚ) - Bl) / ((M:ℚ) - m) + 360) = X := ⟨_, rfl⟩
    have hHbr := jsRound_bracket (60 * ((G:ℚ) - Bl) / ((M:ℚ) - m) + 360)
    have hH300 : 300 ≤ jsRound (60 * ((G:ℚ) - Bl) / ((M:ℚ) - m) + 360) :=
      half_lt_int (by push_cast; linarith [hHbr.2])
    have hH360 : jsRound (60 * ((G:ℚ) - Bl) / ((M:ℚ) - m) + 360) ≤ 360 :=
      jsRound_le_of_lt_half (by push_cast; linarith)
    rw [hHdef] at hHbr hH300 hH360 ⊢
    by_cases hHtop : H = 360
    · subst hHtop
      rw [hsbToRgb_sector0 360 S B 6 (by norm_num) (by norm_num) (by decide)]
      have hslack : 60 * ((G:ℚ) - Bl) / ((M:ℚ) - m) + 360 ≥ 360 - 1/2 := by
        have h1 : ((360:ℤ):ℚ) ≤ 60 * ((G:ℚ) - Bl) / ((M:ℚ) - m) + 360 + 1/2 := hHbr.1
        push_cast at h1
        linarith
      have hmul : -(1/2) * ((M:ℚ) - m) ≤ 60 * ((G:ℚ) - Bl) := by
        rw [← le_div_iff (by linarith : (0:ℚ) < (M:ℚ) - m)]
        linarith
      refine ⟨?_, ?_, ?_⟩
      · refine abs_close_congr _ (M - 0) _
          (roundtrip_chanV M (M - m) 0 B _ (by omega) (by norm_num)
            (by push_cast; linarith) hB1' hB2' rfl) (by omega)
      · refine abs_close_congr _ (M - (M - m) + 0) _
          (roundtrip_chanP M (M - m) 0 S B _ hM0 hM255 (by omega) (by omega)
            (by norm_num) (by push_cast; linarith) hS1' hS2' hS0 hS100 hB1' hB2'
            (by push_cast; ring))
          (by omega)
      · refine abs_close_congr _ (M - (M - m) + (Bl - G)) _
          (roundtrip_chanP M (M - m) (Bl - G) S B _ hM0 hM255 (by omega) (by omega)
            (by push_cast; linarith) (by push_cast; linarith) hS1' hS2' hS0 hS100
            hB1' hB2' rfl)
          (by omega)
    · have hH359 : H < 360 := lt_of_le_of_ne hH360 hHtop
      rw [hsbToRgb_sector5 H S B 5 (by omega) (by omega) (by decide)]
      have hfe : 60 * ((M:ℚ) - m - Bl + G) / ((M:ℚ) - m)
          = 60 * ((G:ℚ) - Bl) / ((M:ℚ) - m) + 60 := by
        rw [div_eq_iff hne, add_mul, div_mul_cancel₀ _ hne]
        ring
      refine ⟨?_, ?_, ?_⟩
      · refine abs_close_congr _ (M - 0) _
          (roundtrip_chanV M (M - m) 0 B _ (by omega) (by norm_num)
            (by push_cast; linarith) hB1' hB2' rfl) (by omega)
      · refine abs_close_congr _ (M - (M - m) + 0) _
          (roundtrip_chanP M (M - m) 0 S B _ hM0 hM255 (by omega) (by omega)
            (by norm_num) (by push_cast; linarith) hS1' hS2' hS0 hS100 hB1' hB2' rfl)
          (by omega)
      · refine abs_close_congr _ (M - (M - m - Bl + G)) _
          (roundtrip_chanQ M (M - m) (M - m - Bl + G) S B H 5 _
            hM0 hM255 (by omega) (by omega) hS1' hS2' hS0 hS100 hB1' hB2'
            (by push_cast; linarith [hHbr.2, hfe])
            (by push_cast; linarith [hHbr.1, hfe])
            (by omega) (by omega) (by push_cast; ring))
          (by omega)

end RoundTripBranches

/-- An integer not exceeding `c + 1/2` is at most `c`. -/
lemma half_gt_int {X c : ℤ} (h : (X : ℚ) ≤ (c : ℚ) + 1/2) : X ≤ c := by
  by_contra hc
  push_neg at hc
  have h1 : c + 1 ≤ X := by omega
  have h2 : (c : ℚ) + 1 ≤ (X : ℚ) := by exact_mod_cast h1
  linarith

set_option maxHeartbeats 1000000 in
/-- Round trip through `rgbToHsb`/`hsbToRgb` in the `max = g` branch. -/
lemma roundtrip_branchB (R G Bl M m : ℤ)
    (hMdef : M = max R (max G Bl)) (hmdef : m = min R (min G Bl))
    (hR0 : 0 ≤ R) (hR255 : R ≤ 255) (hG0 : 0 ≤ G) (hG255 : G ≤ 255)
    (hBl0 : 0 ≤ Bl) (hBl255 : Bl ≤ 255)
    (hmM : m < M) (hMR : M ≠ R) (hMG : M = G) :
    |(NanoleafClient.hsbToRgb (NanoleafClient.rgbToHsb ⟨R, G, Bl⟩)).r - R| ≤ 3 ∧
    |(NanoleafClient.hsbToRgb (NanoleafClient.rgbToHsb ⟨R, G, Bl⟩)).g - G| ≤ 3 ∧
    |(NanoleafClient.hsbToRgb (NanoleafClient.rgbToHsb ⟨R, G, Bl⟩)).b - Bl| ≤ 3 := by
  have hm0 : 0 ≤ m := hmdef ▸ le_min hR0 (le_min hG0 hBl0)
  have hM255 : M ≤ 255 := hMdef ▸ max_le hR255 (max_le hG255 hBl255)
  have hM0 : (0:ℤ) < M := lt_of_le_of_lt hm0 hmM
  have hRM : R ≤ M := hMdef ▸ le_max_left _ _
  have hBlM : Bl ≤ M := hMdef ▸ le_trans (le_max_right _ _) (le_max_right _ _)
  have hmR : m ≤ R := hmdef ▸ min_le_left _ _
  have hmBl : m ≤ Bl := hmdef ▸ le_trans (min_le_right _ _) (min_le_right _ _)
  have hmq : (m:ℚ) < (M:ℚ) := by exact_mod_cast hmM
  have hm0q : (0:ℚ) ≤ (m:ℚ) := by exact_mod_cast hm0
  have hMq0 : (0:ℚ) < (M:ℚ) := by exact_mod_cast hM0
  have hRMq : (R:ℚ) ≤ (M:ℚ) := by exact_mod_cast hRM
  have hBlMq : (Bl:ℚ) ≤ (M:ℚ) := by exact_mod_cast hBlM
  have hmRq : (m:ℚ) ≤ (R:ℚ) := by exact_mod_cast hmR
  have hmBlq : (m:ℚ) ≤ (Bl:ℚ) := by exact_mod_cast hmBl
  have hne : ((M:ℚ) - m) ≠ 0 := ne_of_gt (by linarith)
  have hSexpr0 : (0:ℚ) ≤ ((M:ℚ) - m) * 100 / (M:ℚ) :=
    div_nonneg (by linarith) hMq0.le
  have hSexpr1 : ((M:ℚ) - m) * 100 / (M:ℚ) ≤ 100 := by
    rw [div_le_iff hMq0]
    nlinarith
  obtain ⟨S, hSdef⟩ : ∃ X : ℤ, jsRound (((M:ℚ) - m) * 100 / (M:ℚ)) = X := ⟨_, rfl⟩
  obtain ⟨B, hBdef⟩ : ∃ X : ℤ, jsRound ((M:ℚ) * 100 / 255) = X := ⟨_, rfl⟩
  have hSbr := jsRound_bracket (((M:ℚ) - m) * 100 / (M:ℚ))
  have hBbr := jsRound_bracket ((M:ℚ) * 100 / 255)
  have hS0 : 0 ≤ jsRound (((M:ℚ) - m) * 100 / (M:ℚ)) := jsRound_nonneg hSexpr0
  have hS100 : jsRound (((M:ℚ) - m) * 100 / (M:ℚ)) ≤ 100 :=
    jsRound_le_of_lt_half (by push_cast; linarith)
  rw [hSdef] at hSbr hS0 hS100
  rw [hBdef] at hBbr
  have hB1' : (M:ℚ) * 100 / 255 - 1/2 < (B:ℚ) := hBbr.2
  have hB2' : (B:ℚ) ≤ (M:ℚ) * 100 / 255 + 1/2 := hBbr.1
  have hS1' : ((M - m : ℤ) : ℚ) * 100 / (M:ℚ) - 1/2 < (S:ℚ) := by
    push_cast
    linarith [hSbr.2]
  have hS2' : (S:ℚ) ≤ ((M - m : ℤ) : ℚ) * 100 / (M:ℚ) + 1/2 := by
    push_cast
    linarith [hSbr.1]
  rw [rgbToHsb_eval_B R G Bl M m hMdef hmdef hm0 hmM hMR hMG, hSdef, hBdef]
  have hdivlo : -1 ≤ ((Bl:ℚ) - R) / ((M:ℚ) - m) := by
    rw [neg_le, ← neg_div, div_le_one (by linarith)]
    linarith
  have hdivhi : ((Bl:ℚ) - R) / ((M:ℚ) - m) ≤ 1 := by
    rw [div_le_one (by linarith)]
    linarith
  have heq60 : 60 * ((Bl:ℚ) - R) / ((M:ℚ) - m)
      = 60 * (((Bl:ℚ) - R) / ((M:ℚ) - m)) := by
    ring
  have hha0 : (60:ℚ) ≤ 60 * ((Bl:ℚ) - R) / ((M:ℚ) - m) + 120 := by
    rw [heq60]
    linarith
  have hha1 : 60 * ((Bl:ℚ) - R) / ((M:ℚ) - m) + 120 ≤ 180 := by
    rw [heq60]
    linarith
  obtain ⟨H, hHdef⟩ : ∃ X : ℤ,
      jsRound (60 * ((Bl:ℚ) - R) / ((M:ℚ) - m) + 120) = X := ⟨_, rfl⟩
  have hHbr := jsRound_bracket (60 * ((Bl:ℚ) - R) / ((M:ℚ) - m) + 120)
  have hH60 : 60 ≤ jsRound (60 * ((Bl:ℚ) - R) / ((M:ℚ) - m) + 120) :=
    half_lt_int (by push_cast; linarith [hHbr.2])
  have hH180 : jsRound (60 * ((Bl:ℚ) - R) / ((M:ℚ) - m) + 120) ≤ 180 :=
    jsRound_le_of_lt_half (by push_cast; linarith)
  rw [hHdef] at hHbr hH60 hH180 ⊢
  by_cases hHa : H ≤ 119
  · -- sector 1: raw hue below 119.5, so b < r and min = b
    have hHq : (H:ℚ) ≤ 119 := by exact_mod_cast hHa
    have hrawlt : 60 * ((Bl:ℚ) - R) / ((M:ℚ) - m) + 120 < 119 + 1/2 := by
      linarith [hHbr.2]
    have hmul : 60 * ((Bl:ℚ) - R) < -(1/2) * ((M:ℚ) - m) := by
      rw [← div_lt_iff (by linarith : (0:ℚ) < (M:ℚ) - m)]
      linarith
    have hBlR : Bl < R := by
      have : (Bl:ℚ) < (R:ℚ) := by nlinarith
      exact_mod_cast this
    have hmBl' : m = Bl :=
      le_antisymm hmBl (hmdef ▸ le_min hBlR.le (le_min (hMG ▸ hBlM) le_rfl))
    rw [hsbToRgb_sector1 H S B 1 (by omega) (by omega) (by decide)]
    have hfe : 60 * ((M:ℚ) - m - R + Bl) / ((M:ℚ) - m)
        = 60 * ((Bl:ℚ) - R) / ((M:ℚ) - m) + 60 := by
      rw [div_eq_iff hne, add_mul, div_mul_cancel₀ _ hne]
      ring
    refine ⟨?_, ?_, ?_⟩
    · refine abs_close_congr _ (M - (M - m - R + Bl)) _
        (roundtrip_chanQ M (M - m) (M - m - R + Bl) S B H 1 _
          hM0 hM255 (by omega) (by omega) hS1' hS2' hS0 hS100 hB1' hB2'
          (by push_cast; linarith [hHbr.2, hfe])
          (by push_cast; linarith [hHbr.1, hfe])
          (by omega) (by omega) (by push_cast; ring))
        (by omega)
    · refine abs_close_congr _ (M - 0) _
        (roundtrip_chanV M (M - m) 0 B _ (by omega) (by norm_num)
          (by push_cast; linarith) hB1' hB2' rfl) (by omega)
    · refine abs_close_congr _ (M - (M - m) + 0) _
        (roundtrip_chanP M (M - m) 0 S B _ hM0 hM255 (by omega) (by omega)
          (by norm_num) (by push_cast; linarith) hS1' hS2' hS0 hS100 hB1' hB2' rfl)
        (by omega)
  · by_cases hHb : H = 180
    · -- sector 3 boundary: raw hue at least 179.5, so r < b and min = r
      subst hHb
      have hslack : 60 * ((Bl:ℚ) - R) / ((M:ℚ) - m) + 120 ≥ 180 - 1/2 := by
        have h1 : ((180:ℤ):ℚ) ≤ 60 * ((Bl:ℚ) - R) / ((M:ℚ) - m) + 120 + 1/2 := hHbr.1
        push_cast at h1
        linarith
      have hmul : (60 - 1/2) * ((M:ℚ) - m) ≤ 60 * ((Bl:ℚ) - R) := by
        rw [← le_div_iff (by linarith : (0:ℚ) < (M:ℚ) - m)]
        linarith
      have hRBl : R < Bl := by
        have : (R:ℚ) < (Bl:ℚ) := by nlinarith
        exact_mod_cast this
      have hmR' : m = R :=
        le_antisymm hmR (hmdef ▸ le_min le_rfl (le_min (hMG ▸ hRM) hRBl.le))
      rw [hsbToRgb_sector3 180 S B 3 (by norm_num) (by norm_num) (by decide)]
      refine ⟨?_, ?_, ?_⟩
      · refine abs_close_congr _ (M - (M - m) + 0) _
          (roundtrip_chanP M (M - m) 0 S B _ hM0 hM255 (by omega) (by omega)
            (by norm_num) (by push_cast; linarith) hS1' hS2' hS0 hS100 hB1' hB2' rfl)
          (by omega)
      · refine abs_close_congr _ (M - 0) _
          (roundtrip_chanV M (M - m) 0 B _ (by omega) (by norm_num)
            (by push_cast; linarith) hB1' hB2' (by push_cast; ring)) (by omega)
      · refine abs_close_congr _ (M - (M - Bl)) _
          (roundtrip_chanV M (M - m) (M - Bl) B _ (by omega)
            (by push_cast; linarith) (by push_cast; linarith) hB1' hB2' rfl)
          (by omega)
    · -- sector 2: 120 ≤ H ≤ 179
      have hH120 : 120 ≤ H := by omega
      have hH179 : H ≤ 179 := by omega
      have hH120q : (120:ℚ) ≤ (H:ℚ) := by exact_mod_cast hH120
      have hrawge : 60 * ((Bl:ℚ) - R) / ((M:ℚ) - m) + 120 ≥ 120 - 1/2 := by
        linarith [hHbr.1]
      have hmul : -(1/2) * ((M:ℚ) - m) ≤ 60 * ((Bl:ℚ) - R) := by
        rw [← le_div_iff (by linarith : (0:ℚ) < (M:ℚ) - m)]
        linarith
      have hwP : ((R - m : ℤ):ℚ) ≤ ((M - m : ℤ):ℚ) / 120 := by
        rcases le_total R Bl with hc | hc
        · have hmR' : (m:ℚ) = (R:ℚ) := by
            exact_mod_cast le_antisymm hmR (hmdef ▸ le_min le_rfl (le_min (hMG ▸ hRM) hc))
          push_cast
          linarith
        · have hmBl' : (m:ℚ) = (Bl:ℚ) := by
            exact_mod_cast le_antisymm hmBl (hmdef ▸ le_min hc (le_min (hMG ▸ hBlM) le_rfl))
          push_cast
          linarith
      rw [hsbToRgb_sector2 H S B 2 (by omega) (by omega) (by decide)]
      refine ⟨?_, ?_, ?_⟩
      · refine abs_close_congr _ (M - (M - m) + (R - m)) _
          (roundtrip_chanP M (M - m) (R - m) S B _ hM0 hM255 (by omega) (by omega)
            (by push_cast; linarith) hwP hS1' hS2' hS0 hS100 hB1' hB2' rfl)
          (by omega)
      · refine abs_close_congr _ (M - 0) _
          (roundtrip_chanV M (M - m) 0 B _ (by omega) (by norm_num)
            (by push_cast; linarith) hB1' hB2' rfl) (by omega)
      · rcases le_total Bl R with hc | hc
        · -- b ≤ r forces H = 120 and min = b
          have hcq : (Bl:ℚ) ≤ (R:ℚ) := by exact_mod_cast hc
          have hrawle : 60 * ((Bl:ℚ) - R) / ((M:ℚ) - m) + 120 ≤ 120 := by
            have h1 : 60 * ((Bl:ℚ) - R) / ((M:ℚ) - m) ≤ 0 := by
              rw [heq60]
              have h2 : ((Bl:ℚ) - R) / ((M:ℚ) - m) ≤ 0 :=
                div_nonpos_of_nonpos_of_nonneg (by linarith) (by linarith)
              linarith
            linarith
          have hH120e : H = 120 :=
            le_antisymm (half_gt_int (by push_cast; linarith [hHbr.1])) hH120
          subst hH120e
          have hmBl' : m = Bl :=
            le_antisymm hmBl (hmdef ▸ le_min hc (le_min (hMG ▸ hBlM) le_rfl))
          refine abs_close_congr _ (M - (M - m) + 0) _
            (roundtrip_chanP M (M - m) 0 S B _ hM0 hM255 (by omega) (by omega)
              (by norm_num) (by push_cast; linarith) hS1' hS2' hS0 hS100 hB1' hB2'
              (by push_cast; ring))
            (by omega)
        · -- r ≤ b: min = r, flipped mid channel
          have hmR' : m = R :=
            le_antisymm hmR (hmdef ▸ le_min le_rfl (le_min (hMG ▸ hRM) hc))
          have hfe : 60 * ((M:ℚ) - m - Bl + R) / ((M:ℚ) - m)
              = 60 - 60 * ((Bl:ℚ) - R) / ((M:ℚ) - m) := by
            rw [div_eq_iff hne, sub_mul, div_mul_cancel₀ _ hne]
            ring
          refine abs_close_congr _ (M - (M - m - Bl + R)) _
            (roundtrip_chanQ M (M - m) (M - m - Bl + R) S B (180 - H) 0 _
              hM0 hM255 (by omega) (by omega) hS1' hS2' hS0 hS100 hB1' hB2'
              (by push_cast; linarith [hHbr.1, hfe])
              (by push_cast; linarith [hHbr.2, hfe])
              (by omega) (by omega) (by push_cast; ring))
            (by omega)


set_option maxHeartbeats 1000000 in
/-- Round trip through `rgbToHsb`/`hsbToRgb` in the `max = b` branch. -/
lemma roundtrip_branchC (R G Bl M m : ℤ)
    (hMdef : M = max R (max G Bl)) (hmdef : m = min R (min G Bl))
    (hR0 : 0 ≤ R) (hR255 : R ≤ 255) (hG0 : 0 ≤ G) (hG255 : G ≤ 255)
    (hBl0 : 0 ≤ Bl) (hBl255 : Bl ≤ 255)
    (hmM : m < M) (hMR : M ≠ R) (hMG : M ≠ G) :
    |(NanoleafClient.hsbToRgb (NanoleafClient.rgbToHsb ⟨R, G, Bl⟩)).r - R| ≤ 3 ∧
    |(NanoleafClient.hsbToRgb (NanoleafClient.rgbToHsb ⟨R, G, Bl⟩)).g - G| ≤ 3 ∧
    |(NanoleafClient.hsbToRgb (NanoleafClient.rgbToHsb ⟨R, G, Bl⟩)).b - Bl| ≤ 3 := by
  have hMBl : M = Bl := by
    rcases max_choice R (max G Bl) with h | h
    · exact absurd (hMdef.trans h) hMR
    · rcases max_choice G Bl with h2 | h2
      · exact absurd (hMdef.trans (h.trans h2)) hMG
      · exact hMdef.trans (h.trans h2)
  have hm0 : 0 ≤ m := hmdef ▸ le_min hR0 (le_min hG0 hBl0)
  have hM255 : M ≤ 255 := hMdef ▸ max_le hR255 (max_le hG255 hBl255)
  have hM0 : (0:ℤ) < M := lt_of_le_of_lt hm0 hmM
  have hRM : R ≤ M := hMdef ▸ le_max_left _ _
  have hGM : G ≤ M := hMdef ▸ le_trans (le_max_left _ _) (le_max_right _ _)
  have hmR : m ≤ R := hmdef ▸ min_le_left _ _
  have hmG : m ≤ G := hmdef ▸ le_trans (min_le_right _ _) (min_le_left _ _)
  have hmq : (m:ℚ) < (M:ℚ) := by exact_mod_cast hmM
  have hm0q : (0:ℚ) ≤ (m:ℚ) := by exact_mod_cast hm0
  have hMq0 : (0:ℚ) < (M:ℚ) := by exact_mod_cast hM0
  have hRMq : (R:ℚ) ≤ (M:ℚ) := by exact_mod_cast hRM
  have hGMq : (G:ℚ) ≤ (M:ℚ) := by exact_mod_cast hGM
  have hmRq : (m:ℚ) ≤ (R:ℚ) := by exact_mod_cast hmR
  have hmGq : (m:ℚ) ≤ (G:ℚ) := by exact_mod_cast hmG
  have hne : ((M:ℚ) - m) ≠ 0 := ne_of_gt (by linarith)
  have hSexpr0 : (0:ℚ) ≤ ((M:ℚ) - m) * 100 / (M:ℚ) :=
    div_nonneg (by linarith) hMq0.le
  have hSexpr1 : ((M:ℚ) - m) * 100 / (M:ℚ) ≤ 100 := by
    rw [div_le_iff hMq0]
    nlinarith
  obtain ⟨S, hSdef⟩ : ∃ X : ℤ, jsRound (((M:ℚ) - m) * 100 / (M:ℚ)) = X := ⟨_, rfl⟩
  obtain ⟨B, hBdef⟩ : ∃ X : ℤ, jsRound ((M:ℚ) * 100 / 255) = X := ⟨_, rfl⟩
  have hSbr := jsRound_bracket (((M:ℚ) - m) * 100 / (M:ℚ))
  have hBbr := jsRound_bracket ((M:ℚ) * 100 / 255)
  have hS0 : 0 ≤ jsRound (((M:ℚ) - m) * 100 / (M:ℚ)) := jsRound_nonneg hSexpr0
  have hS100 : jsRound (((M:ℚ) - m) * 100 / (M:ℚ)) ≤ 100 :=
    jsRound_le_of_lt_half (by push_cast; linarith)
  rw [hSdef] at hSbr hS0 hS100
  rw [hBdef] at hBbr
  have hB1' : (M:ℚ) * 100 / 255 - 1/2 < (B:ℚ) := hBbr.2
  have hB2' : (B:ℚ) ≤ (M:ℚ) * 100 / 255 + 1/2 := hBbr.1
  have hS1' : ((M - m : ℤ) : ℚ) * 100 / (M:ℚ) - 1/2 < (S:ℚ) := by
    push_cast
    linarith [hSbr.2]
  have hS2' : (S:ℚ) ≤ ((M - m : ℤ) : ℚ) * 100 / (M:ℚ) + 1/2 := by
    push_cast
    linarith [hSbr.1]
  rw [rgbToHsb_eval_C R G Bl M m hMdef hmdef hm0 hmM hMR hMG, hSdef, hBdef]
  have hdivlo : -1 ≤ ((R:ℚ) - G) / ((M:ℚ) - m) := by
    rw [neg_le, ← neg_div, div_le_one (by linarith)]
    linarith
  have hdivhi : ((R:ℚ) - G) / ((M:ℚ) - m) ≤ 1 := by
    rw [div_le_one (by linarith)]
    linarith
  have heq60 : 60 * ((R:ℚ) - G) / ((M:ℚ) - m)
      = 60 * (((R:ℚ) - G) / ((M:ℚ) - m)) := by
    ring
  have hha0 : (180:ℚ) ≤ 60 * ((R:ℚ) - G) / ((M:ℚ) - m) + 240 := by
    rw [heq60]
    linarith
  have hha1 : 60 * ((R:ℚ) - G) / ((M:ℚ) - m) + 240 ≤ 300 := by
    rw [heq60]
    linarith
  obtain ⟨H, hHdef⟩ : ∃ X : ℤ,
      jsRound (60 * ((R:ℚ) - G) / ((M:ℚ) - m) + 240) = X := ⟨_, rfl⟩
  have hHbr := jsRound_bracket (60 * ((R:ℚ) - G) / ((M:ℚ) - m) + 240)
  have hH180 : 180 ≤ jsRound (60 * ((R:ℚ) - G) / ((M:ℚ) - m) + 240) :=
    half_lt_int (by push_cast; linarith [hHbr.2])
  have hH300 : jsRound (60 * ((R:ℚ) - G) / ((M:ℚ) - m) + 240) ≤ 300 :=
    jsRound_le_of_lt_half (by push_cast; linarith)
  rw [hHdef] at hHbr hH180 hH300 ⊢
  by_cases hHa : H ≤ 239
  · -- sector 3: raw hue below 239.5, so r < g and min = r
    have hHq : (H:ℚ) ≤ 239 := by exact_mod_cast hHa
    have hrawlt : 60 * ((R:ℚ) - G) / ((M:ℚ) - m) + 240 < 239 + 1/2 := by
      linarith [hHbr.2]
    have hmul : 60 * ((R:ℚ) - G) < -(1/2) * ((M:ℚ) - m) := by
      rw [← div_lt_iff (by linarith : (0:ℚ) < (M:ℚ) - m)]
      linarith
    have hRG : R < G := by
      have : (R:ℚ) < (G:ℚ) := by nlinarith
      exact_mod_cast this
    have hmR' : m = R :=
      le_antisymm hmR (hmdef ▸ le_min le_rfl (le_min hRG.le (hMBl ▸ hRM)))
    rw [hsbToRgb_sector3 H S B 3 (by omega) (by omega) (by decide)]
    have hfe : 60 * ((M:ℚ) - m - G + R) / ((M:ℚ) - m)
        = 60 * ((R:ℚ) - G) / ((M:ℚ) - m) + 60 := by
      rw [div_eq_iff hne, add_mul, div_mul_cancel₀ _ hne]
      ring
    refine ⟨?_, ?_, ?_⟩
    · refine abs_close_congr _ (M - (M - m) + 0) _
        (roundtrip_chanP M (M - m) 0 S B _ hM0 hM255 (by omega) (by omega)
          (by norm_num) (by push_cast; linarith) hS1' hS2' hS0 hS100 hB1' hB2' rfl)
        (by omega)
    · refine abs_close_congr _ (M - (M - m - G + R)) _
        (roundtrip_chanQ M (M - m) (M - m - G + R) S B H 3 _
          hM0 hM255 (by omega) (by omega) hS1' hS2' hS0 hS100 hB1' hB2'
          (by push_cast; linarith [hHbr.2, hfe])
          (by push_cast; linarith [hHbr.1, hfe])
          (by omega) (by omega) (by push_cast; ring))
        (by omega)
    · refine abs_close_congr _ (M - 0) _
        (roundtrip_chanV M (M - m) 0 B _ (by omega) (by norm_num)
          (by push_cast; linarith) hB1' hB2' rfl) (by omega)
  · by_cases hHb : H = 300
    · -- sector 5 boundary: raw hue at least 299.5, so g < r and min = g
      subst hHb
      have hslack : 60 * ((R:ℚ) - G) / ((M:ℚ) - m) + 240 ≥ 300 - 1/2 := by
        have h1 : ((300:ℤ):ℚ) ≤ 60 * ((R:ℚ) - G) / ((M:ℚ) - m) + 240 + 1/2 := hHbr.1
        push_cast at h1
        linarith
      have hmul : (60 - 1/2) * ((M:ℚ) - m) ≤ 60 * ((R:ℚ) - G) := by
        rw [← le_div_iff (by linarith : (0:ℚ) < (M:ℚ) - m)]
        linarith
      have hGR : G < R := by
        have : (G:ℚ) < (R:ℚ) := by nlinarith
        exact_mod_cast this
      have hmG' : m = G :=
        le_antisymm hmG (hmdef ▸ le_min hGR.le (le_min le_rfl (hMBl ▸ hGM)))
      rw [hsbToRgb_sector5 300 S B 5 (by norm_num) (by norm_num) (by decide)]
      refine ⟨?_, ?_, ?_⟩
      · refine abs_close_congr _ (M - (M - R)) _
          (roundtrip_chanV M (M - m) (M - R) B _ (by omega)
            (by push_cast; linarith) (by push_cast; linarith) hB1' hB2' rfl)
          (by omega)
      · refine abs_close_congr _ (M - (M - m) + 0) _
          (roundtrip_chanP M (M - m) 0 S B _ hM0 hM255 (by omega) (by omega)
            (by norm_num) (by push_cast; linarith) hS1' hS2' hS0 hS100 hB1' hB2' rfl)
          (by omega)
      · refine abs_close_congr _ (M - 0) _
          (roundtrip_chanV M (M - m) 0 B _ (by omega) (by norm_num)
            (by push_cast; linarith) hB1' hB2' (by push_cast; ring)) (by omega)
    · -- sector 4: 240 ≤ H ≤ 299
      have hH240 : 240 ≤ H := by omega
      have hH299 : H ≤ 299 := by omega
      have hH240q : (240:ℚ) ≤ (H:ℚ) := by exact_mod_cast hH240
      have hrawge : 60 * ((R:ℚ) - G) / ((M:ℚ) - m) + 240 ≥ 240 - 1/2 := by
        linarith [hHbr.1]
      have hmul : -(1/2) * ((M:ℚ) - m) ≤ 60 * ((R:ℚ) - G) := by
        rw [← le_div_iff (by linarith : (0:ℚ) < (M:ℚ) - m)]
        linarith
      have hwP : ((G - m : ℤ):ℚ) ≤ ((M - m : ℤ):ℚ) / 120 := by
        rcases le_total G R with hc | hc
        · have hmG' : (m:ℚ) = (G:ℚ) := by
            exact_mod_cast le_antisymm hmG
              (hmdef ▸ le_min hc (le_min le_rfl (hMBl ▸ hGM)))
          push_cast
          linarith
        · have hmR' : (m:ℚ) = (R:ℚ) := by
            exact_mod_cast le_antisymm hmR
              (hmdef ▸ le_min le_rfl (le_min hc (hMBl ▸ hRM)))
          push_cast
          linarith
      rw [hsbToRgb_sector4 H S B 4 (by omega) (by omega) (by decide)]
      refine ⟨?_, ?_, ?_⟩
      · rcases le_total R G with hc | hc
        · -- r ≤ g forces H = 240 and min = r
          have hcq : (R:ℚ) ≤ (G:ℚ) := by exact_mod_cast hc
          have hrawle : 60 * ((R:ℚ) - G) / ((M:ℚ) - m) + 240 ≤ 240 := by
            have h1 : 60 * ((R:ℚ) - G) / ((M:ℚ) - m) ≤ 0 := by
              rw [heq60]
              have h2 : ((R:ℚ) - G) / ((M:ℚ) - m) ≤ 0 :=
                div_nonpos_of_nonpos_of_nonneg (by linarith) (by linarith)
              linarith
            linarith
          have hH240e : H = 240 :=
            le_antisymm (half_gt_int (by push_cast; linarith [hHbr.1])) hH240
          subst hH240e
          have hmR' : m = R :=
            le_antisymm hmR (hmdef ▸ le_min le_rfl (le_min hc (hMBl ▸ hRM)))
          refine abs_close_congr _ (M - (M - m) + 0) _
            (roundtrip_chanP M (M - m) 0 S B _ hM0 hM255 (by omega) (by omega)
              (by norm_num) (by push_cast; linarith) hS1' hS2' hS0 hS100 hB1' hB2'
              (by push_cast; ring))
            (by omega)
        · -- g ≤ r: min = g, flipped mid channel
          have hmG' : m = G :=
            le_antisymm hmG (hmdef ▸ le_min hc (le_min le_rfl (hMBl ▸ hGM)))
          have hfe : 60 * ((M:ℚ) - m - R + G) / ((M:ℚ) - m)
              = 60 - 60 * ((R:ℚ) - G) / ((M:ℚ) - m) := by
            rw [div_eq_iff hne, sub_mul, div_mul_cancel₀ _ hne]
            ring
          refine abs_close_congr _ (M - (M - m - R + G)) _
            (roundtrip_chanQ M (M - m) (M - m - R + G) S B (300 - H) 0 _
              hM0 hM255 (by omega) (by omega) hS1' hS2' hS0 hS100 hB1' hB2'
              (by push_cast; linarith [hHbr.1, hfe])
              (by push_cast; linarith [hHbr.2, hfe])
              (by omega) (by omega) (by push_cast; ring))
            (by omega)
      · refine abs_close_congr _ (M - (M - m) + (G - m)) _
          (roundtrip_chanP M (M - m) (G - m) S B _ hM0 hM255 (by omega) (by omega)
            (by push_cast; linarith) hwP hS1' hS2' hS0 hS100 hB1' hB2' rfl)
          (by omega)
      · refine abs_close_congr _ (M - 0) _
          (roundtrip_chanV M (M - m) 0 B _ (by omega) (by norm_num)
            (by push_cast; linarith) hB1' hB2' rfl) (by omega)

/-- Round trip through `rgbToHsb`/`hsbToRgb` on an achromatic input. -/
lemma roundtrip_achrom (R : ℤ) (hR0 : 0 ≤ R) (hR255 : R ≤ 255) :
    |(NanoleafClient.hsbToRgb (NanoleafClient.rgbToHsb ⟨R, R, R⟩)).r - R| ≤ 3 ∧
    |(NanoleafClient.hsbToRgb (NanoleafClient.rgbToHsb ⟨R, R, R⟩)).g - R| ≤ 3 ∧
    |(NanoleafClient.hsbToRgb (NanoleafClient.rgbToHsb ⟨R, R, R⟩)).b - R| ≤ 3 := by
  have hRq0 : (0:ℚ) ≤ (R:ℚ) := by exact_mod_cast hR0
  have hR255q : (R:ℚ) ≤ 255 := by exact_mod_cast hR255
  obtain ⟨B, hBdef⟩ : ∃ X : ℤ, jsRound ((R:ℚ) * 100 / 255) = X := ⟨_, rfl⟩
  have hBbr := jsRound_bracket ((R:ℚ) * 100 / 255)
  rw [hBdef] at hBbr
  rw [rgbToHsb_eval_achrom R, hBdef]
  have hz : ((0:ℤ):ℚ) = (0:ℚ) := by norm_num
  rw [← hz]
  rw [hsbToRgb_sector0 0 0 B 0 (by norm_num) (by norm_num) (by decide)]
  refine ⟨?_, ?_, ?_⟩
  · exact abs_close_congr _ (R - 0) _
      (roundtrip_chanV R 0 0 B _ (by omega) (by norm_num) (by norm_num)
        hBbr.2 hBbr.1 rfl) (by omega)
  · exact abs_close_congr _ (R - 0) _
      (roundtrip_chanV R 0 0 B _ (by omega) (by norm_num) (by norm_num)
        hBbr.2 hBbr.1 (by push_cast; ring)) (by omega)
  · exact abs_close_congr _ (R - 0) _
      (roundtrip_chanV R 0 0 B _ (by omega) (by norm_num) (by norm_num)
        hBbr.2 hBbr.1 (by push_cast; ring)) (by omega)


/-- C4 (amended): for every RGB input with all channels in `[0,255]`, the
round trip `hsbToRgb (rgbToHsb c)` moves each channel by at most 3. -/
theorem roundtrip_tolerance_bound (c : RGBColor)
    (hr0 : 0 ≤ c.r) (hr1 : c.r ≤ 255) (hg0 : 0 ≤ c.g) (hg1 : c.g ≤ 255)
    (hb0 : 0 ≤ c.b) (hb1 : c.b ≤ 255) :
    |(NanoleafClient.hsbToRgb (NanoleafClient.rgbToHsb c)).r - c.r| ≤ 3 ∧
    |(NanoleafClient.hsbToRgb (NanoleafClient.rgbToHsb c)).g - c.g| ≤ 3 ∧
    |(NanoleafClient.hsbToRgb (NanoleafClient.rgbToHsb c)).b - c.b| ≤ 3 := by
  obtain ⟨R, G, Bl⟩ := c
  have hR0 : 0 ≤ R := hr0
  have hR255 : R ≤ 255 := hr1
  have hG0 : 0 ≤ G := hg0
  have hG255 : G ≤ 255 := hg1
  have hBl0 : 0 ≤ Bl := hb0
  have hBl255 : Bl ≤ 255 := hb1
  have hminmax : min R (min G Bl) ≤ max R (max G Bl) :=
    le_trans (min_le_left _ _) (le_max_left _ _)
  rcases eq_or_lt_of_le hminmax with heq | hlt
  · -- achromatic: all channels equal
    have hRmin : R = min R (min G Bl) :=
      le_antisymm (heq.symm ▸ le_max_left _ _) (min_le_left _ _)
    have hGmin : G = min R (min G Bl) :=
      le_antisymm (heq.symm ▸ le_trans (le_max_left _ _) (le_max_right _ _))
        (le_trans (min_le_right _ _) (min_le_left _ _))
    have hBlmin : Bl = min R (min G Bl) :=
      le_antisymm (heq.symm ▸ le_trans (le_max_right _ _) (le_max_right _ _))
        (le_trans (min_le_right _ _) (min_le_right _ _))
    have hGR : G = R := hGmin.trans hRmin.symm
    have hBlR : Bl = R := hBlmin.trans hRmin.symm
    rw [hGR, hBlR]
    exact roundtrip_achrom R hR0 hR255
  · by_cases hcr : max R (max G Bl) = R
    · exact roundtrip_branchA R G Bl (max R (max G Bl)) (min R (min G Bl))
        rfl rfl hR0 hR255 hG0 hG255 hBl0 hBl255 hlt hcr
    · by_cases hcg : max R (max G Bl) = G
      · exact roundtrip_branchB R G Bl (max R (max G Bl)) (min R (min G Bl))
          rfl rfl hR0 hR255 hG0 hG255 hBl0 hBl255 hlt hcr hcg
      · exact roundtrip_branchC R G Bl (max R (max G Bl)) (min R (min G Bl))
          rfl rfl hR0 hR255 hG0 hG255 hBl0 hBl255 hlt hcr hcg

/-- C4 amended-bound witness at the concrete input `(0,108,254)`, where the
green channel actually moves by 3. -/
theorem roundtrip_tolerance_bound_witness :
    |(NanoleafClient.hsbToRgb (NanoleafClient.rgbToHsb ⟨0, 108, 254⟩)).r - 0| ≤ 3 ∧
    |(NanoleafClient.hsbToRgb (NanoleafClient.rgbToHsb ⟨0, 108, 254⟩)).g - 108| ≤ 3 ∧
    |(NanoleafClient.hsbToRgb (NanoleafClient.rgbToHsb ⟨0, 108, 254⟩)).b - 254| ≤ 3 :=
  roundtrip_tolerance_bound ⟨0, 108, 254⟩ (by decide) (by decide) (by decide)
    (by decide) (by decide) (by decide)

end Nanoleaf
